import Mathlib

/-!
Verification of the Snowflake Cortex response parser
(tools/Slack-qs-patch/cortex_response_parser_modified.py).

The Python module is shallowly embedded: JSON values become the inductive
type `JVal`; Python strings are Lean strings with all primitive operations
implemented over the underlying character lists; code paths on which Python
raises an uncaught exception return `Except.error` carrying the exception
kind.  Mutation of the response object is modelled by explicit state
passing.  Modelling simplifications, each noted at its definition: JSON
numeric literals are restricted to integers, string rendering of container
values inside citation text is abbreviated, and unicode escapes in JSON
strings are treated as parse failures.  No claim below depends on these
corners.
-/

/-- Kinds of Python exceptions that the embedded code can raise. -/
inductive PyError where
  | typeError
  | attributeError
  | keyError
  | jsonDecodeError
deriving DecidableEq, Repr

/-- JSON values (Python objects produced by json.loads).  Numbers are
restricted to integers; object fields keep insertion order, mirroring
Python dictionaries. -/
inductive JVal where
  | null : JVal
  | bool (b : Bool) : JVal
  | num (n : Int) : JVal
  | str (s : String) : JVal
  | arr (xs : List JVal) : JVal
  | obj (kvs : List (String × JVal)) : JVal

/-- First value bound to a key in an association list (Python dict lookup;
duplicate keys never arise from `jsonLoads`, which keeps the last value at
the first position, as Python does). -/
def lookupKey (kvs : List (String × JVal)) (k : String) : Option JVal :=
  match kvs.find? (fun p => p.1 == k) with
  | some p => some p.2
  | none => none

/-- Python dict assignment d[k] = v: overwrite in place if present
(keeping the original position), else append. -/
def dictSet (kvs : List (String × JVal)) (k : String) (v : JVal) :
    List (String × JVal) :=
  if kvs.any (fun p => p.1 == k) then
    kvs.map (fun p => if p.1 == k then (k, v) else p)
  else kvs ++ [(k, v)]

/-- Python truthiness of a value. -/
def JVal.truthy : JVal → Bool
  | .null => false
  | .bool b => b
  | .num n => n != 0
  | .str s => s != ""
  | .arr xs => !xs.isEmpty
  | .obj kvs => !kvs.isEmpty

/-- Python equality of a value against a string literal (values of other
runtime types never equal a str). -/
def jstrEq (v : JVal) (s : String) : Bool :=
  match v with
  | .str t => t == s
  | _ => false

/-- Python comparison of an optional lookup result against a string
(None == s is False). -/
def optJStrEq (o : Option JVal) (s : String) : Bool :=
  match o with
  | some v => jstrEq v s
  | none => false

/-- Substring occurrence test on character lists. -/
def listHasInfix (pat : List Char) : List Char → Bool
  | [] => pat.isEmpty
  | c :: rest => pat.isPrefixOf (c :: rest) || listHasInfix pat rest

/-- Python membership test k in v.  Substring test for strings, element
equality for lists, key presence for dicts; TypeError otherwise. -/
def pyIn (k : String) (v : JVal) : Except PyError Bool :=
  match v with
  | .str s => .ok (listHasInfix k.data s.data)
  | .arr xs => .ok (xs.any (fun x => jstrEq x k))
  | .obj kvs => .ok ((lookupKey kvs k).isSome)
  | _ => .error .typeError

/-- Python indexing v[k] with a string key: dict lookup (KeyError when the
key is absent); TypeError on every other type. -/
def pyIndexStr (v : JVal) (k : String) : Except PyError JVal :=
  match v with
  | .obj kvs =>
      match lookupKey kvs k with
      | some x => .ok x
      | none => .error .keyError
  | _ => .error .typeError

/-- Python v.get(k): present only on dicts (AttributeError otherwise). -/
def pyGet (v : JVal) (k : String) : Except PyError (Option JVal) :=
  match v with
  | .obj kvs => .ok (lookupKey kvs k)
  | _ => .error .attributeError

/-- Python v.get(k, d). -/
def pyGetD (v : JVal) (k : String) (d : JVal) : Except PyError JVal := do
  match (← pyGet v k) with
  | some x => pure x
  | none => pure d

/-- Extract the underlying string of a value in a position where Python
requires a str (string concatenation, re.search): TypeError otherwise. -/
def asStr (v : JVal) : Except PyError String :=
  match v with
  | .str s => .ok s
  | _ => .error .typeError

/-- Python iteration over a value: list elements, string characters,
dict keys; TypeError on scalars. -/
def pyIter (v : JVal) : Except PyError (List JVal) :=
  match v with
  | .arr xs => .ok xs
  | .str s => .ok (s.data.map (fun c => JVal.str (String.mk [c])))
  | .obj kvs => .ok (kvs.map (fun p => JVal.str p.1))
  | _ => .error .typeError

/-- Characters stripped by Python str.strip(). -/
def isPyWs (c : Char) : Bool :=
  c == ' ' || c == '\t' || c == '\n' || c == '\r' || c == '\x0c' || c == '\x0b'

/-- Python s.strip(). -/
def pyStrip (s : String) : String :=
  String.mk (((s.data.dropWhile isPyWs).reverse.dropWhile isPyWs).reverse)

/-- Python s.startswith(pre). -/
def pyStartsWith (s pre : String) : Bool :=
  pre.data.isPrefixOf s.data

/-- Python s[n:]. -/
def pyDrop (s : String) (n : Nat) : String :=
  String.mk (s.data.drop n)

/-- Python v.strip() where Python requires a str receiver
(AttributeError otherwise). -/
def pyStripJ (v : JVal) : Except PyError String :=
  match v with
  | .str s => .ok (pyStrip s)
  | _ => .error .attributeError

/-- Rendering used for f-string interpolation of values inside citation
text.  Strings, numbers, booleans and None follow Python str(); the
rendering of containers is abbreviated (no claim depends on it). -/
def pyToStr : JVal → String
  | .str s => s
  | .num n => toString n
  | .bool true => "True"
  | .bool false => "False"
  | .null => "None"
  | .arr _ => "<list>"
  | .obj _ => "<dict>"

/-! Section: A small executable model of json.loads

Whitespace, null, booleans, integer numerals, strings with the common
escapes, arrays and objects.  Non-integer numerals and unicode escapes are
treated as parse failures (no claim involves them).  Duplicate object keys
keep the last value at the first position, as Python does. -/

/-- JSON whitespace. -/
def isJsonWs (c : Char) : Bool :=
  c == ' ' || c == '\t' || c == '\n' || c == '\r'

/-- Drop leading JSON whitespace. -/
def skipWs (cs : List Char) : List Char :=
  cs.dropWhile isJsonWs

/-- Parse the body of a JSON string literal after the opening quote. -/
def parseJStr : List Char → Option (String × List Char)
  | [] => none
  | '"' :: rest => some ("", rest)
  | '\\' :: e :: rest => do
      let c ←
        match e with
        | '"' => some '"'
        | '\\' => some '\\'
        | '/' => some '/'
        | 'n' => some '\n'
        | 't' => some '\t'
        | 'r' => some '\r'
        | 'b' => some '\x08'
        | 'f' => some '\x0c'
        | _ => none
      let (s, rest') ← parseJStr rest
      some (String.mk (c :: s.data), rest')
  | c :: rest => do
      let (s, rest') ← parseJStr rest
      some (String.mk (c :: s.data), rest')

/-- Parse a run of decimal digits into a value, accumulating left to
right. -/
def parseNatAux (acc : Nat) : List Char → (Nat × List Char)
  | c :: rest =>
      if c.isDigit then parseNatAux (acc * 10 + (c.toNat - '0'.toNat)) rest
      else (acc, c :: rest)
  | [] => (acc, [])

/-- Parse a JSON integer numeral (strict grammar: optional minus, no
leading zeros); a following fraction or exponent makes the parse fail. -/
def parseJNum (cs : List Char) : Option (Int × List Char) := do
  let (neg, cs1) :=
    match cs with
    | '-' :: rest => (true, rest)
    | _ => (false, cs)
  match cs1 with
  | [] => none
  | c :: rest =>
      if !c.isDigit then none
      else if c == '0' && (match rest with
        | d :: _ => d.isDigit
        | [] => false) then none
      else
        let (n, rest') := parseNatAux (c.toNat - '0'.toNat) rest
        match rest' with
        | '.' :: _ => none
        | 'e' :: _ => none
        | 'E' :: _ => none
        | _ => some (if neg then -(n : Int) else (n : Int), rest')

mutual

/-- Parse one JSON value (fuel-indexed recursive descent). -/
def parseJVal : Nat → List Char → Option (JVal × List Char)
  | 0, _ => none
  | fuel + 1, cs =>
    match skipWs cs with
    | [] => none
    | c :: rest =>
      match c with
      | 'n' =>
          match rest with
          | 'u' :: 'l' :: 'l' :: rest' => some (.null, rest')
          | _ => none
      | 't' =>
          match rest with
          | 'r' :: 'u' :: 'e' :: rest' => some (.bool true, rest')
          | _ => none
      | 'f' =>
          match rest with
          | 'a' :: 'l' :: 's' :: 'e' :: rest' => some (.bool false, rest')
          | _ => none
      | '"' =>
          match parseJStr rest with
          | some (s, rest') => some (.str s, rest')
          | none => none
      | '[' =>
          match skipWs rest with
          | ']' :: rest' => some (.arr [], rest')
          | _ =>
              match parseJElems fuel rest with
              | some (vs, rest') => some (.arr vs, rest')
              | none => none
      | '{' =>
          match skipWs rest with
          | '}' :: rest' => some (.obj [], rest')
          | _ =>
              match parseJFields fuel rest with
              | some (kvs, rest') =>
                  some (.obj (kvs.foldl (fun (d : List (String × JVal)) p => dictSet d p.1 p.2) []), rest')
              | none => none
      | _ =>
          match parseJNum (c :: rest) with
          | some (n, rest') => some (.num n, rest')
          | none => none

/-- Parse the non-empty element list of a JSON array, consuming the
closing bracket. -/
def parseJElems : Nat → List Char → Option (List JVal × List Char)
  | 0, _ => none
  | fuel + 1, cs =>
      match parseJVal fuel cs with
      | none => none
      | some (v, rest) =>
          match skipWs rest with
          | ',' :: rest' =>
              match parseJElems fuel rest' with
              | some (vs, rest'') => some (v :: vs, rest'')
              | none => none
          | ']' :: rest' => some ([v], rest')
          | _ => none

/-- Parse the non-empty field list of a JSON object, consuming the
closing brace. -/
def parseJFields : Nat → List Char → Option (List (String × JVal) × List Char)
  | 0, _ => none
  | fuel + 1, cs =>
      match skipWs cs with
      | '"' :: rest =>
          match parseJStr rest with
          | none => none
          | some (k, rest1) =>
              match skipWs rest1 with
              | ':' :: rest2 =>
                  match parseJVal fuel rest2 with
                  | none => none
                  | some (v, rest3) =>
                      match skipWs rest3 with
                      | ',' :: rest4 =>
                          match parseJFields fuel rest4 with
                          | some (kvs, rest5) => some ((k, v) :: kvs, rest5)
                          | none => none
                      | '}' :: rest4 => some ([(k, v)], rest4)
                      | _ => none
              | _ => none
      | _ => none

end

/-- The model of json.loads: parse one value, allow trailing whitespace,
and fail on any other trailing input. -/
def jsonLoads (s : String) : Option JVal :=
  match parseJVal (s.data.length + 1) s.data with
  | some (v, rest) => if (skipWs rest).isEmpty then some v else none
  | none => none

/-! Section: Thinking-span extraction

Model of re.search of the DOTALL pattern matching an open thinking tag, a minimal body (group 1), and a close thinking tag:
the first open marker, then the first close marker after it; group 1 is the
text strictly between them. -/

/-- Index of the first occurrence of pat as a contiguous sublist. -/
def findSubIdx (pat : List Char) : List Char → Option Nat
  | [] => if pat.isEmpty then some 0 else none
  | c :: rest =>
      if pat.isPrefixOf (c :: rest) then some 0
      else (findSubIdx pat rest).map (fun n => n + 1)

/-- Group 1 of the thinking regex: the substring strictly between the
first open marker and the first close marker after it, if both occur. -/
def extractThinking (s : String) : Option String :=
  let cs := s.data
  match findSubIdx "<thinking>".data cs with
  | none => none
  | some i =>
      let after := cs.drop (i + 10)
      match findSubIdx "</thinking>".data after with
      | none => none
      | some j => some (String.mk (after.take j))

/-- Lines 248-252 of the source: the list of spans (zero or one) that one
thinking payload text contributes to the accumulated thinking buffer: the
regex group, stripped, kept only when non-empty. -/
def thinkingSpanOf (s : String) : List String :=
  match extractThinking s with
  | some g => if pyStrip g != "" then [pyStrip g] else []
  | none => []

/-! Section: The data model (dataclasses of the source)

Field types follow the runtime values rather than the dataclass type
hints: the source stores unvalidated JSON fragments in these fields, so
they are JVal here. -/

/-- Dataclass ToolUse. -/
structure ToolUse where
  id : JVal
  name : JVal
  type : JVal
  arguments : JVal

/-- Dataclass ToolResult.  content is whatever JSON fragment the wire
carried (the source iterates it with a for loop, which raises on
non-iterable values). -/
structure ToolResult where
  tool_use_id : JVal
  content : JVal

/-- Dataclass ParsedMessage.  role and content are unvalidated runtime
values. -/
structure ParsedMessage where
  role : JVal
  content : JVal

/-- Dataclass Suggestion. -/
structure Suggestion where
  text : JVal

/-- Dataclass CortexResponse.  request_id none models the attribute still
holding its default None. -/
structure CortexResponse where
  messages : List ParsedMessage
  suggestions : List Suggestion
  status_messages : List JVal
  request_id : Option JVal

/-- Loop of ToolResult.sql_query (lines 35-39). -/
def sqlQueryFold : List JVal → Except PyError (Option JVal)
  | [] => .ok none
  | item :: rest =>
      match item with
      | .obj kvs =>
          match lookupKey kvs "json" with
          | some jd => do
              let b ← pyIn "sql" jd
              if b then do
                let v ← pyIndexStr jd "sql"
                pure (some v)
              else sqlQueryFold rest
          | none => sqlQueryFold rest
      | _ => sqlQueryFold rest

/-- ToolResult.sql_query. -/
def ToolResult.sql_query (tr : ToolResult) : Except PyError (Option JVal) := do
  sqlQueryFold (← pyIter tr.content)

/-- Loop of ToolResult.search_results (lines 43-49). -/
def searchResultsFold : List JVal → List JVal → Except PyError (List JVal)
  | [], acc => .ok acc
  | item :: rest, acc =>
      match item with
      | .obj kvs =>
          match lookupKey kvs "json" with
          | some jd => do
              let b ← pyIn "searchResults" jd
              if b then do
                let v ← pyIndexStr jd "searchResults"
                let elems ← pyIter v
                searchResultsFold rest (acc ++ elems)
              else searchResultsFold rest acc
          | none => searchResultsFold rest acc
      | _ => searchResultsFold rest acc

/-- ToolResult.search_results. -/
def ToolResult.search_results (tr : ToolResult) :
    Except PyError (List JVal) := do
  searchResultsFold (← pyIter tr.content) []

/-- The five keys collected by ToolResult.verification_info, in source
order (lines 58-67). -/
def verificationKeys : List String :=
  ["verification", "validated", "query_verified", "verified_query_used",
   "query_validation"]

/-- Copy the present verification keys of one structured-data wrapper into
the accumulating dict. -/
def verificationKeysFold (jd : JVal) :
    List String → List (String × JVal) → Except PyError (List (String × JVal))
  | [], acc => .ok acc
  | k :: ks, acc => do
      let b ← pyIn k jd
      if b then do
        let v ← pyIndexStr jd k
        verificationKeysFold jd ks (dictSet acc k v)
      else verificationKeysFold jd ks acc

/-- Loop of ToolResult.verification_info (lines 54-68). -/
def verificationInfoFold : List JVal → List (String × JVal) →
    Except PyError (List (String × JVal))
  | [], acc => .ok acc
  | item :: rest, acc =>
      match item with
      | .obj kvs =>
          match lookupKey kvs "json" with
          | some jd => do
              let acc' ← verificationKeysFold jd verificationKeys acc
              verificationInfoFold rest acc'
          | none => verificationInfoFold rest acc
      | _ => verificationInfoFold rest acc

/-- ToolResult.verification_info. -/
def ToolResult.verification_info (tr : ToolResult) :
    Except PyError (List (String × JVal)) := do
  verificationInfoFold (← pyIter tr.content) []

/-- Truthiness of d.get(k, False) on a dict with string keys. -/
def truthyAt (d : List (String × JVal)) (k : String) : Bool :=
  match lookupKey d k with
  | some v => v.truthy
  | none => false

/-- The or-chain of lines 74-79: the four trigger keys of the merged
verification mapping, by truthiness (query_validation is not among
them). -/
def vqChain (verification : List (String × JVal)) : Bool :=
  truthyAt verification "verified_query_used" ||
  truthyAt verification "query_verified" ||
  truthyAt verification "validated" ||
  truthyAt verification "verification"

/-- ToolResult.is_verified_query.  The source returns the or-chain of the
four trigger values; it is consumed only in boolean context, so it is
modelled as the truthiness of that chain. -/
def ToolResult.is_verified_query (tr : ToolResult) : Except PyError Bool := do
  let verification ← tr.verification_info
  pure (vqChain verification)

/-- Key priority list for the structured-data wrapper level of
ToolResult.chart_spec (line 88). -/
def chartKeysWrapper : List String :=
  ["chart", "visualization", "vega_lite", "vegaLite", "vegalite"]

/-- Key priority list for the nested results level (line 93): note it has
four keys, not two. -/
def chartKeysResults : List String :=
  ["chart", "visualization", "vega_lite", "vegaLite"]

/-- Key priority list for the item top level (line 96). -/
def chartKeysTop : List String :=
  ["chart", "visualization"]

/-- The repeated pattern: for key in keys, if key in v, return v[key]. -/
def findKeyIn (v : JVal) : List String → Except PyError (Option JVal)
  | [] => .ok none
  | k :: ks => do
      let b ← pyIn k v
      if b then do
        let x ← pyIndexStr v k
        pure (some x)
      else findKeyIn v ks

/-- Loop of ToolResult.chart_spec (lines 84-99). -/
def chartSpecFold : List JVal → Except PyError (Option JVal)
  | [] => .ok none
  | item :: rest =>
      match item with
      | .obj kvs => do
          let fromWrapper ←
            match lookupKey kvs "json" with
            | some jd => do
                let r1 ← findKeyIn jd chartKeysWrapper
                match r1 with
                | some v => pure (some v)
                | none => do
                    let br ← pyIn "results" jd
                    if br then do
                      let res ← pyIndexStr jd "results"
                      match res with
                      | .obj _ => findKeyIn res chartKeysResults
                      | _ => pure none
                    else pure none
            | none => pure (none : Option JVal)
          match fromWrapper with
          | some v => pure (some v)
          | none => do
              let r3 ← findKeyIn item chartKeysTop
              match r3 with
              | some v => pure (some v)
              | none => chartSpecFold rest
      | _ => chartSpecFold rest

/-- ToolResult.chart_spec. -/
def ToolResult.chart_spec (tr : ToolResult) : Except PyError (Option JVal) := do
  chartSpecFold (← pyIter tr.content)

/-- Loop of ParsedMessage.text_content (lines 111-115): collect the text
field of text-typed items; joining raises TypeError when a collected value
is not a str. -/
def textContentFold : List JVal → String → Except PyError String
  | [], acc => .ok acc
  | item :: rest, acc => do
      let t ← pyGet item "type"
      if optJStrEq t "text" then do
        let tx ← pyGetD item "text" (.str "")
        let s ← asStr tx
        textContentFold rest (acc ++ s)
      else textContentFold rest acc

/-- ParsedMessage.text_content. -/
def ParsedMessage.text_content (m : ParsedMessage) : Except PyError String := do
  textContentFold (← pyIter m.content) ""

/-- Loop of ParsedMessage.tool_uses (lines 120-130). -/
def toolUsesFold : List JVal → List ToolUse → Except PyError (List ToolUse)
  | [], acc => .ok acc
  | item :: rest, acc => do
      let t ← pyGet item "type"
      if optJStrEq t "tool_use" then do
        let td ← pyGetD item "tool_use" (.obj [])
        let i ← pyGetD td "id" (.str "")
        let n ← pyGetD td "name" (.str "")
        let ty ← pyGetD td "type" (.str "")
        let args ← pyGetD td "arguments" (.obj [])
        toolUsesFold rest (acc ++ [⟨i, n, ty, args⟩])
      else toolUsesFold rest acc

/-- ParsedMessage.tool_uses. -/
def ParsedMessage.tool_uses (m : ParsedMessage) :
    Except PyError (List ToolUse) := do
  toolUsesFold (← pyIter m.content) []

/-- Loop of ParsedMessage.tool_results (lines 136-148): items typed
tool_results and items typed tool_result both yield a ToolResult. -/
def toolResultsFold : List JVal → List ToolResult →
    Except PyError (List ToolResult)
  | [], acc => .ok acc
  | item :: rest, acc => do
      let t ← pyGet item "type"
      if optJStrEq t "tool_results" then do
        let trd ← pyGetD item "tool_results" (.obj [])
        let tid ← pyGetD trd "tool_use_id" (.str "")
        let c ← pyGetD trd "content" (.arr [])
        toolResultsFold rest (acc ++ [⟨tid, c⟩])
      else if optJStrEq t "tool_result" then do
        let trd ← pyGetD item "tool_result" (.obj [])
        let tid ← pyGetD trd "tool_use_id" (.str "")
        let c ← pyGetD trd "content" (.arr [])
        toolResultsFold rest (acc ++ [⟨tid, c⟩])
      else toolResultsFold rest acc

/-- ParsedMessage.tool_results. -/
def ParsedMessage.tool_results (m : ParsedMessage) :
    Except PyError (List ToolResult) := do
  toolResultsFold (← pyIter m.content) []

/-- Loop of CortexResponse.final_text (lines 169-172), run on the
reversed message list: the first assistant message decides. -/
def finalTextGo : List ParsedMessage → Except PyError String
  | [] => .ok ""
  | m :: rest =>
      if jstrEq m.role "assistant" then m.text_content else finalTextGo rest

/-- CortexResponse.final_text. -/
def CortexResponse.final_text (r : CortexResponse) : Except PyError String :=
  finalTextGo r.messages.reverse

/-- Inner loop of CortexResponse.sql_queries: collect the truthy sql
values of a list of tool results. -/
def sqlQueriesTrFold : List ToolResult → List JVal → Except PyError (List JVal)
  | [], acc => .ok acc
  | tr :: rest, acc => do
      let s ← tr.sql_query
      match s with
      | some v => if v.truthy then sqlQueriesTrFold rest (acc ++ [v])
                  else sqlQueriesTrFold rest acc
      | none => sqlQueriesTrFold rest acc

/-- Outer loop of CortexResponse.sql_queries (lines 177-183). -/
def sqlQueriesMsgFold : List ParsedMessage → List JVal →
    Except PyError (List JVal)
  | [], acc => .ok acc
  | m :: rest, acc => do
      let trs ← m.tool_results
      let acc' ← sqlQueriesTrFold trs acc
      sqlQueriesMsgFold rest acc'

/-- CortexResponse.sql_queries. -/
def CortexResponse.sql_queries (r : CortexResponse) :
    Except PyError (List JVal) :=
  sqlQueriesMsgFold r.messages []

/-- Inner loop of CortexResponse.search_results. -/
def searchResultsTrFold : List ToolResult → List JVal →
    Except PyError (List JVal)
  | [], acc => .ok acc
  | tr :: rest, acc => do
      let rs ← tr.search_results
      searchResultsTrFold rest (acc ++ rs)

/-- Outer loop of CortexResponse.search_results (lines 188-192). -/
def searchResultsMsgFold : List ParsedMessage → List JVal →
    Except PyError (List JVal)
  | [], acc => .ok acc
  | m :: rest, acc => do
      let trs ← m.tool_results
      let acc' ← searchResultsTrFold trs acc
      searchResultsMsgFold rest acc'

/-- CortexResponse.search_results. -/
def CortexResponse.search_results (r : CortexResponse) :
    Except PyError (List JVal) :=
  searchResultsMsgFold r.messages []

/-- Loop of CortexResponse.citations (lines 197-204). -/
def citationsFold : List JVal → List String → Except PyError (List String)
  | [], acc => .ok acc
  | result :: rest, acc => do
      let b1 ← pyIn "doc_title" result
      let b2 ← if b1 then pyIn "text" result else pure false
      if b1 && b2 then do
        let dt ← pyIndexStr result "doc_title"
        let tx ← pyIndexStr result "text"
        let citation := pyToStr dt ++ ": " ++ pyToStr tx
        let b3 ← pyIn "doc_id" result
        let citation' ←
          if b3 then do
            let di ← pyIndexStr result "doc_id"
            pure (citation ++ " [Source: " ++ pyToStr di ++ "]")
          else pure citation
        citationsFold rest (acc ++ [citation'])
      else citationsFold rest acc

/-- CortexResponse.citations. -/
def CortexResponse.citations (r : CortexResponse) :
    Except PyError (List String) := do
  citationsFold (← r.search_results) []

/-- Inner loop of CortexResponse.chart_specs: keep the truthy chart of
each tool result. -/
def chartSpecsTrFold : List ToolResult → List JVal → Except PyError (List JVal)
  | [], acc => .ok acc
  | tr :: rest, acc => do
      let c ← tr.chart_spec
      match c with
      | some v => if v.truthy then chartSpecsTrFold rest (acc ++ [v])
                  else chartSpecsTrFold rest acc
      | none => chartSpecsTrFold rest acc

/-- Outer loop of CortexResponse.chart_specs (lines 209-215). -/
def chartSpecsMsgFold : List ParsedMessage → List JVal →
    Except PyError (List JVal)
  | [], acc => .ok acc
  | m :: rest, acc => do
      let trs ← m.tool_results
      let acc' ← chartSpecsTrFold trs acc
      chartSpecsMsgFold rest acc'

/-- CortexResponse.chart_specs. -/
def CortexResponse.chart_specs (r : CortexResponse) :
    Except PyError (List JVal) :=
  chartSpecsMsgFold r.messages []

/-- The parser class; debug is its only instance state. -/
structure CortexResponseParser where
  debug : Bool

/-! Section: The SSE streaming path -/

/-- The three delta buffers of accumulated_content plus the thinking span
buffer, the status message buffer and the current event name: the loop
state of parse_sse_response. -/
structure SSEState where
  accText : String
  accToolUse : List JVal
  accToolResults : List JVal
  thinking : List String
  statusMessages : List JVal
  currentEvent : Option String

/-- Initial loop state. -/
def initSSEState : SSEState :=
  { accText := "", accToolUse := [], accToolResults := [], thinking := [],
    statusMessages := [], currentEvent := none }

/-- Result record of _parse_delta_content. -/
structure DeltaContent where
  text : String
  tool_use : List JVal
  tool_results : List JVal

/-- The tagged dictionaries _process_sse_line can return. -/
inductive ParsedLine where
  | empty : ParsedLine
  | done : ParsedLine
  | trace (data : String) : ParsedLine
  | finalMessage (role content : JVal) : ParsedLine
  | message (content : DeltaContent) : ParsedLine
  | other (data : JVal) : ParsedLine
  | errorLine (line : String) : ParsedLine

/-- Loop of _parse_delta_content (lines 518-525). -/
def deltaEntryFold : List JVal → DeltaContent → Except PyError DeltaContent
  | [], acc => .ok acc
  | entry :: rest, acc => do
      let t ← pyGet entry "type"
      if optJStrEq t "text" then do
        let tx ← pyGetD entry "text" (.str "")
        let s ← asStr tx
        deltaEntryFold rest { acc with text := acc.text ++ s }
      else if optJStrEq t "tool_use" then do
        let tu ← pyGetD entry "tool_use" (.obj [])
        deltaEntryFold rest { acc with tool_use := acc.tool_use ++ [tu] }
      else if optJStrEq t "tool_results" then do
        let tr ← pyGetD entry "tool_results" (.obj [])
        deltaEntryFold rest
          { acc with tool_results := acc.tool_results ++ [tr] }
      else deltaEntryFold rest acc

/-- Model of _parse_delta_content. -/
def parseDeltaContent (content : JVal) : Except PyError DeltaContent := do
  deltaEntryFold (← pyIter content) ⟨"", [], []⟩

/-- Lines 492-506 of _process_sse_line: classify one decoded data
payload. -/
def processDataVal (data : JVal) : Except PyError ParsedLine := do
  let b1 ← pyIn "content" data
  let isFinal ←
    if b1 then do
      let b2 ← pyIn "role" data
      if b2 then do
        let r ← pyGet data "role"
        pure (optJStrEq r "assistant")
      else pure false
    else pure false
  if isFinal then do
    let r ← pyIndexStr data "role"
    let c ← pyIndexStr data "content"
    pure (.finalMessage r c)
  else do
    let o ← pyGet data "object"
    if optJStrEq o "message.delta" then do
      let delta ← pyGetD data "delta" (.obj [])
      let bc ← pyIn "content" delta
      if bc then do
        let c ← pyIndexStr delta "content"
        let dc ← parseDeltaContent c
        pure (.message dc)
      else pure (.other data)
    else pure (.other data)

/-- Model of _process_sse_line (lines 477-508). -/
def processSSELine (line : String) : Except PyError ParsedLine :=
  if !pyStartsWith line "data: " then .ok .empty
  else
    let json_str := pyStrip (pyDrop line 6)
    if json_str == "[DONE]" then .ok .done
    else if pyStartsWith json_str "[" then .ok (.trace json_str)
    else
      match jsonLoads json_str with
      | none => .ok (.errorLine line)
      | some data => processDataVal data

/-- Event dispatch on one successfully decoded data payload (the body of
the try block, lines 245-273). -/
def handleData (st : SSEState) (v : JVal) : Except PyError SSEState :=
  let e := st.currentEvent
  if e = some "response.thinking.delta" ∨ e = some "response.thinking" then do
    let b ← pyIn "text" v
    if b then do
      let t ← pyIndexStr v "text"
      let s ← asStr t
      pure { st with thinking := st.thinking ++ thinkingSpanOf s }
    else pure st
  else if e = some "response.status" then do
    let b ← pyIn "message" v
    if b then do
      let m ← pyIndexStr v "message"
      pure { st with statusMessages := st.statusMessages ++ [m] }
    else pure st
  else if e = some "response.text.delta" then do
    let b ← pyIn "text" v
    if b then do
      let t ← pyIndexStr v "text"
      let s ← asStr t
      pure { st with accText := st.accText ++ s }
    else pure st
  else if e = some "response.text" then pure st
  else if e = some "response.tool_result" then do
    let b1 ← pyIn "content" v
    let b2 ← if b1 then pyIn "tool_use_id" v else pure false
    if b2 then do
      let tid ← pyIndexStr v "tool_use_id"
      let c ← pyIndexStr v "content"
      pure { st with accToolResults :=
        st.accToolResults ++ [JVal.obj [("tool_use_id", tid), ("content", c)]] }
    else pure st
  else pure st

/-- The five event names excluded from delta-merge reprocessing
(line 280). -/
def mergeExcludedEvents : List String :=
  ["response.text.delta", "response.text", "response.thinking.delta",
   "response.thinking", "response.status"]

/-- current_event not in the excluded list (None is not in the list). -/
def mergeAllowed (e : Option String) : Bool :=
  match e with
  | some s => !(mergeExcludedEvents.contains s)
  | none => true

/-- Merge one parsed delta into the accumulation buffers
(lines 281-285). -/
def mergeDelta (st : SSEState) (dc : DeltaContent) : SSEState :=
  { st with
    accText := st.accText ++ dc.text,
    accToolUse := st.accToolUse ++ dc.tool_use,
    accToolResults := st.accToolResults ++ dc.tool_results }

/-- One iteration of the parse_sse_response line loop (lines 231-291).
The boolean is the break flag. -/
def sseStep (st : SSEState) (line : String) :
    Except PyError (SSEState × Bool) :=
  if pyStartsWith line "event: " then
    .ok ({ st with currentEvent := some (pyStrip (pyDrop line 7)) }, false)
  else if pyStartsWith line "data: " ∧ pyStrip (pyDrop line 6) = "[DONE]" then
    .ok (st, true)
  else do
    let st1 ←
      if pyStartsWith line "data: " then
        match jsonLoads (pyStrip (pyDrop line 6)) with
        | some v => handleData st v
        | none => pure st
      else pure st
    let parsed ← processSSELine line
    let st2 :=
      if mergeAllowed st.currentEvent then
        match parsed with
        | .message dc => mergeDelta st1 dc
        | _ => st1
      else st1
    match parsed with
    | .done => .ok (st2, true)
    | _ => .ok (st2, false)

/-- The line loop of parse_sse_response. -/
def sseLoop : List String → SSEState → Except PyError SSEState
  | [], st => .ok st
  | line :: rest, st => do
      let (st', brk) ← sseStep st line
      if brk then .ok st' else sseLoop rest st'

/-- One assistant message holding exactly one thinking item
(lines 295-298). -/
def thinkingMsg (t : String) : ParsedMessage :=
  { role := .str "assistant",
    content := .arr [JVal.obj [("type", .str "thinking"), ("text", .str t)]] }

/-- The flush stage of parse_sse_response (lines 293-324): one assistant
message per retained thinking span, then one aggregate assistant message
when any accumulation buffer is non-empty. -/
def flushMessages (st : SSEState) : List ParsedMessage :=
  let tmsgs := (st.thinking.filter (fun t => pyStrip t != "")).map thinkingMsg
  let agg :=
    if st.accText != "" || !st.accToolUse.isEmpty ||
        !st.accToolResults.isEmpty then
      [{ role := .str "assistant",
         content := .arr
           ((if st.accText != "" then
               [JVal.obj [("type", .str "text"), ("text", .str st.accText)]]
             else []) ++
            st.accToolUse.map
              (fun tu => JVal.obj [("type", .str "tool_use"), ("tool_use", tu)]) ++
            st.accToolResults.map
              (fun tr => JVal.obj
                [("type", .str "tool_results"), ("tool_results", tr)])) }]
    else []
  tmsgs ++ agg

/-- CortexResponseParser.parse_sse_response. -/
def parse_sse_response (_self : CortexResponseParser)
    (sse_lines : List String) : Except PyError CortexResponse := do
  let st ← sseLoop sse_lines initSSEState
  pure { messages := flushMessages st, suggestions := [],
         status_messages := st.statusMessages, request_id := none }

/-! Section: The non-streaming JSON path -/

/-- Lines 335-349 of parse_json_response: build the response from the
decoded document. -/
def parseJsonDoc (data : JVal) : Except PyError CortexResponse := do
  let rid ← pyGet data "request_id"
  let bMsg ← pyIn "message" data
  let messages ←
    if bMsg then do
      let md ← pyIndexStr data "message"
      let role ← pyGetD md "role" (.str "assistant")
      let content ← pyGetD md "content" (.arr [])
      pure [ParsedMessage.mk role content]
    else pure []
  let bSug ← pyIn "suggestions" data
  let suggestions ←
    if bSug then do
      let sv ← pyIndexStr data "suggestions"
      let items ← pyIter sv
      pure (items.map Suggestion.mk)
    else pure []
  pure { messages := messages, suggestions := suggestions,
         status_messages := [], request_id := rid }

/-- CortexResponseParser.parse_json_response (lines 328-349).  The input
models the Union of str and parsed documents: a str variant is decoded
first (json.loads raising to the caller on failure), any other value is
used as the document. -/
def parse_json_response (_self : CortexResponseParser) (json_data : JVal) :
    Except PyError CortexResponse := do
  let data ←
    match json_data with
    | .str s =>
        match jsonLoads s with
        | some d => pure d
        | none => .error PyError.jsonDecodeError
    | d => pure d
  parseJsonDoc data

/-! Section: The trace fallback path -/

/-- The generator of any(msg.text_content == text for msg in messages):
short-circuits on the first match, propagating any error raised while
computing a text_content on the way. -/
def anyTextEqFold : List ParsedMessage → String → Except PyError Bool
  | [], _ => .ok false
  | m :: rest, t => do
      let tc ← m.text_content
      if tc == t then pure true else anyTextEqFold rest t

/-- Inner part of the existing-sql comprehension: truthy sql values of a
list of tool results. -/
def existingSqlsTrFold : List ToolResult → List JVal →
    Except PyError (List JVal)
  | [], acc => .ok acc
  | tr :: rest, acc => do
      let s ← tr.sql_query
      match s with
      | some v => if v.truthy then existingSqlsTrFold rest (acc ++ [v])
                  else existingSqlsTrFold rest acc
      | none => existingSqlsTrFold rest acc

/-- The comprehension of line 419: every truthy sql value already present
in any tool result of any message. -/
def existingSqlsFold : List ParsedMessage → List JVal →
    Except PyError (List JVal)
  | [], acc => .ok acc
  | m :: rest, acc => do
      let trs ← m.tool_results
      let acc' ← existingSqlsTrFold trs acc
      existingSqlsFold rest acc'

/-- messages[-1].content.append(item): AttributeError unless the last
content value is a list. -/
def appendToLast (r : CortexResponse) (item : JVal) :
    Except PyError CortexResponse :=
  match r.messages.getLast? with
  | none => .error .attributeError
  | some m =>
      match m.content with
      | .arr xs =>
          .ok { r with messages :=
            r.messages.dropLast ++ [{ m with content := .arr (xs ++ [item]) }] }
      | _ => .error .attributeError

/-- The synthesized tool_results content item carrying one sql string
(lines 422-428). -/
def sqlTraceItem (sql : String) : JVal :=
  JVal.obj [("type", .str "tool_results"),
    ("tool_results", JVal.obj
      [("tool_use_id", .str "cortex_analyst"),
       ("content", .arr [JVal.obj [("json", JVal.obj [("sql", .str sql)])]])])]

/-- The synthesized tool_results content item carrying one search result
(lines 447-459). -/
def searchTraceItem (sr : JVal) : JVal :=
  JVal.obj [("type", .str "tool_results"),
    ("tool_results", JVal.obj
      [("tool_use_id", .str "cortex_search"),
       ("content", .arr [JVal.obj
         [("json", JVal.obj [("searchResults", .arr [sr])])]])])]

/-- Truncation of a search text (line 448): value[:1000] + dots when
len(value) > 1000; len and the mixed concatenation raise on the types on
which Python raises. -/
def truncateSearchText (v : JVal) : Except PyError JVal :=
  match v with
  | .str s =>
      if s.data.length > 1000 then
        .ok (.str (String.mk (s.data.take 1000) ++ "..."))
      else .ok (.str s)
  | .arr xs => if xs.length > 1000 then .error .typeError else .ok (.arr xs)
  | .obj kvs => if kvs.length > 1000 then .error .typeError else .ok (.obj kvs)
  | _ => .error .typeError

/-- Append an item to the last message, or open a first assistant message
holding it (the repeated pattern of lines 421-439 and 453-471). -/
def appendTraceItem (r : CortexResponse) (item : JVal) :
    Except PyError CortexResponse :=
  if !r.messages.isEmpty then appendToLast r item
  else .ok { r with messages :=
    [ParsedMessage.mk (.str "assistant") (.arr [item])] }

/-- Loop body of the search-results attribute (lines 443-471), folding
with the running index of enumerate. -/
def searchTraceFold : List JVal → Nat → CortexResponse →
    Except PyError CortexResponse
  | [], _, r => .ok r
  | result :: rest, i, r => do
      let sv ← pyGetD result "stringValue" (.str "")
      if sv.truthy then do
        let st ← truncateSearchText sv
        let sr := JVal.obj [("text", st), ("doc_title", .str "Support Cases"),
          ("doc_id", .str ("search_result_" ++ toString (i + 1)))]
        let r' ← appendTraceItem r (searchTraceItem sr)
        searchTraceFold rest (i + 1) r'
      else searchTraceFold rest (i + 1) r

/-- Truthiness of response.request_id (None when still unset). -/
def requestIdTruthy (r : CortexResponse) : Bool :=
  match r.request_id with
  | some v => v.truthy
  | none => false

/-- Dispatch on one attribute of a trace object (lines 404-475). -/
def traceAttrStep (r : CortexResponse) (attr : JVal) :
    Except PyError CortexResponse := do
  let key ← pyGetD attr "key" (.str "")
  let value ← pyGetD attr "value" (.obj [])
  if jstrEq key "ai.observability.agent.response" then do
    let sv ← pyGetD value "stringValue" (.str "")
    let text ← pyStripJ sv
    if text != "" then do
      let dup ← anyTextEqFold r.messages text
      if !dup then
        pure { r with messages := r.messages ++
          [ParsedMessage.mk (.str "assistant")
            (.arr [JVal.obj [("type", .str "text"), ("text", .str text)]])] }
      else pure r
    else pure r
  else if jstrEq key "ai.observability.agent.tool.cortex_analyst.sql_query"
      then do
    let sv ← pyGetD value "stringValue" (.str "")
    let sql ← pyStripJ sv
    if sql != "" then do
      let existing ← existingSqlsFold r.messages []
      if !(existing.any (fun v => jstrEq v sql)) then
        appendTraceItem r (sqlTraceItem sql)
      else pure r
    else pure r
  else if jstrEq key "ai.observability.agent.tool.cortex_search.results"
      then do
    let av ← pyGetD value "arrayValue" (.obj [])
    let vals ← pyGetD av "values" (.arr [])
    if vals.truthy then do
      let items ← pyIter vals
      searchTraceFold items 0 r
    else pure r
  else if jstrEq key "ai.observability.agent.request_id" then
    if !requestIdTruthy r then do
      let v ← pyGetD value "stringValue" (.str "")
      pure { r with request_id := some v }
    else pure r
  else pure r

/-- Loop over the attributes of one trace object. -/
def traceAttrsFold : List JVal → CortexResponse →
    Except PyError CortexResponse
  | [], r => .ok r
  | attr :: rest, r => do
      let r' ← traceAttrStep r attr
      traceAttrsFold rest r'

/-- CortexResponseParser._extract_from_trace (lines 400-475), with the
response threaded explicitly in place of mutation. -/
def extract_from_trace (_self : CortexResponseParser) (trace_data : JVal)
    (response : CortexResponse) : Except PyError CortexResponse := do
  let attributes ← pyGetD trace_data "attributes" (.arr [])
  let items ← pyIter attributes
  traceAttrsFold items response

/-! Section: The summary -/

/-- The fixed-key summary mapping returned by extract_summary. -/
structure Summary where
  text : String
  sql_queries : List JVal
  citations : List String
  suggestions : List JVal
  tool_uses : Nat
  search_results_count : Nat
  verification_info : List (String × JVal)
  verified_query_used : Bool
  planning_updates : List String
  chart_specs : List JVal

/-- Planning-update collection over one message content (lines 536-540). -/
def planningFold : List JVal → List String → Except PyError (List String)
  | [], acc => .ok acc
  | item :: rest, acc => do
      let t ← pyGet item "type"
      if optJStrEq t "thinking" then do
        let tx ← pyGetD item "text" (.str "")
        let s ← pyStripJ tx
        if s != "" then planningFold rest (acc ++ [s])
        else planningFold rest acc
      else planningFold rest acc

/-- Per-tool-result verification folding of extract_summary
(lines 542-547). -/
def summaryTrFold : List ToolResult → List (String × JVal) × Bool →
    Except PyError (List (String × JVal) × Bool)
  | [], acc => .ok acc
  | tr :: rest, (vi, flag) => do
      let tv ← tr.verification_info
      let vi' := if !tv.isEmpty then
          tv.foldl (fun d p => dictSet d p.1 p.2) vi
        else vi
      let b ← tr.is_verified_query
      summaryTrFold rest (vi', flag || b)

/-- Per-message folding of extract_summary (lines 535-547). -/
def summaryMsgFold : List ParsedMessage →
    List (String × JVal) × Bool × List String →
    Except PyError (List (String × JVal) × Bool × List String)
  | [], acc => .ok acc
  | m :: rest, (vi, flag, planning) => do
      let items ← pyIter m.content
      let planning' ← planningFold items planning
      let trs ← m.tool_results
      let (vi', flag') ← summaryTrFold trs (vi, flag)
      summaryMsgFold rest (vi', flag', planning')

/-- The tool-use count of line 554: the length of the comprehension over
every message. -/
def toolUsesCountFold : List ParsedMessage → Nat → Except PyError Nat
  | [], acc => .ok acc
  | m :: rest, acc => do
      let tus ← m.tool_uses
      toolUsesCountFold rest (acc + tus.length)

/-- CortexResponseParser.extract_summary (lines 529-560). -/
def extract_summary (_self : CortexResponseParser) (response : CortexResponse) :
    Except PyError Summary := do
  let (vi, flag, planning) ← summaryMsgFold response.messages ([], false, [])
  let text ← response.final_text
  let sqls ← response.sql_queries
  let cits ← response.citations
  let suggs := response.suggestions.map Suggestion.text
  let tus ← toolUsesCountFold response.messages 0
  let srs ← response.search_results
  let charts ← response.chart_specs
  pure { text := text, sql_queries := sqls, citations := cits,
         suggestions := suggs, tool_uses := tus,
         search_results_count := srs.length, verification_info := vi,
         verified_query_used := flag, planning_updates := planning,
         chart_specs := charts }

/-! Section: Proof infrastructure -/

@[simp]
theorem exc_bind_ok {α β : Type} (a : α) (f : α → Except PyError β) :
    (Except.ok a : Except PyError α) >>= f = f a := rfl

@[simp]
theorem exc_bind_error {α β : Type} (e : PyError) (f : α → Except PyError β) :
    (Except.error e : Except PyError α) >>= f = .error e := rfl

@[simp]
theorem exc_pure {α : Type} (a : α) :
    (pure a : Except PyError α) = .ok a := rfl

theorem exc_bind_ok_iff {α β : Type} {e : Except PyError α}
    {f : α → Except PyError β} {b : β} :
    e >>= f = .ok b ↔ ∃ a, e = .ok a ∧ f a = .ok b := by
  cases e <;> simp

/-! Section: Claim C2 -/

/-- C2: feeding an event marker for text deltas, then the payloads with
text A and text B, then the terminator, yields exactly one assistant
message holding a single Text item AB, and final_text of the parsed
response is AB: successive text-delta payloads are concatenated in order
into one buffer and flushed as a single Text item. -/
theorem claim_C2_text_delta_concat :
    parse_sse_response (CortexResponseParser.mk false)
      ["event: response.text.delta",
       "data: \x7b\"text\":\"A\"\x7d",
       "data: \x7b\"text\":\"B\"\x7d",
       "data: [DONE]"] =
    .ok (CortexResponse.mk
      [ParsedMessage.mk (.str "assistant")
        (.arr [JVal.obj [("type", .str "text"), ("text", .str "AB")]])]
      [] [] none) ∧
    (CortexResponse.mk
      [ParsedMessage.mk (.str "assistant")
        (.arr [JVal.obj [("type", .str "text"), ("text", .str "AB")]])]
      [] [] none).final_text = .ok "AB" := by
  exact ⟨rfl, rfl⟩

/-! Section: Claim C8 -/

/-- C8: parsing is deterministic and consults no shared parser state: the
summary computed from a line sequence is a pure function of the lines, and
in particular is independent of the parser instance (whose debug flag is
its only state), so running the pipeline twice on identical, complete
input, even on different parser instances, yields structurally equal
summaries. -/
theorem claim_C8_deterministic (p q : CortexResponseParser)
    (lines : List String) :
    (parse_sse_response p lines >>= extract_summary p) =
    (parse_sse_response q lines >>= extract_summary q) := rfl

/-! Section: Claim C1 -/

/-- The step lemma behind the true half of C1: a data line whose payload
fails JSON decoding (and is not the terminator) leaves the loop state
unchanged and does not break or raise. -/
theorem sseStep_malformed (st : SSEState) (line : String)
    (h1 : pyStartsWith line "event: " = false)
    (h2 : pyStartsWith line "data: " = true)
    (h3 : pyStrip (pyDrop line 6) ≠ "[DONE]")
    (h4 : jsonLoads (pyStrip (pyDrop line 6)) = none) :
    sseStep st line = .ok (st, false) := by
  unfold sseStep
  rw [h1]
  rw [if_neg (by simp)]
  rw [if_neg (fun hc => h3 hc.2)]
  rw [h2]
  simp only [if_true, h4]
  unfold processSSELine
  rw [h2]
  simp only [Bool.not_true, Bool.false_eq_true, if_false]
  rw [if_neg (by simp [h3])]
  split
  · simp [mergeAllowed]
  · rw [h4]
    simp [mergeAllowed]

/-- A line on which the SSE loop cannot raise: an event marker, a line
that is not a data line, the terminator, or a data line whose payload
fails JSON decoding. -/
def benignSSELine (line : String) : Prop :=
  pyStartsWith line "event: " = true ∨
  pyStartsWith line "data: " = false ∨
  pyStrip (pyDrop line 6) = "[DONE]" ∨
  jsonLoads (pyStrip (pyDrop line 6)) = none

/-- On a benign line the step succeeds and every buffer is preserved. -/
theorem sseStep_benign (st : SSEState) (line : String)
    (hb : benignSSELine line) :
    ∃ st' brk, sseStep st line = .ok (st', brk) ∧
      st'.accText = st.accText ∧ st'.accToolUse = st.accToolUse ∧
      st'.accToolResults = st.accToolResults ∧ st'.thinking = st.thinking ∧
      st'.statusMessages = st.statusMessages := by
  by_cases h1 : pyStartsWith line "event: " = true
  · refine ⟨{ st with currentEvent := some (pyStrip (pyDrop line 7)) }, false,
      ?_, rfl, rfl, rfl, rfl, rfl⟩
    unfold sseStep
    rw [h1]
    simp
  · replace h1 : pyStartsWith line "event: " = false := by
      simpa using h1
    by_cases h2 : pyStartsWith line "data: " = true
    · by_cases h3 : pyStrip (pyDrop line 6) = "[DONE]"
      · refine ⟨st, true, ?_, rfl, rfl, rfl, rfl, rfl⟩
        unfold sseStep
        rw [h1]
        simp only [Bool.false_eq_true, if_false]
        rw [if_pos ⟨h2, h3⟩]
      · have h4 : jsonLoads (pyStrip (pyDrop line 6)) = none := by
          rcases hb with h | h | h | h
          · exact absurd h (by simp [h1])
          · exact absurd h2 (by simp [h])
          · exact absurd h h3
          · exact h
        exact ⟨st, false, sseStep_malformed st line h1 h2 h3 h4, rfl, rfl,
          rfl, rfl, rfl⟩
    · replace h2 : pyStartsWith line "data: " = false := by
        simpa using h2
      refine ⟨st, false, ?_, rfl, rfl, rfl, rfl, rfl⟩
      unfold sseStep
      rw [h1]
      simp only [Bool.false_eq_true, if_false]
      rw [if_neg (fun hc => by rw [h2] at hc; exact Bool.false_ne_true hc.1)]
      rw [h2]
      simp only [Bool.false_eq_true, if_false]
      unfold processSSELine
      rw [h2]
      simp [mergeAllowed]

/-- Over benign lines the loop succeeds with all buffers preserved. -/
theorem sseLoop_benign : ∀ (lines : List String) (st : SSEState),
    (∀ l ∈ lines, benignSSELine l) →
    ∃ st', sseLoop lines st = .ok st' ∧
      st'.accText = st.accText ∧ st'.accToolUse = st.accToolUse ∧
      st'.accToolResults = st.accToolResults ∧ st'.thinking = st.thinking ∧
      st'.statusMessages = st.statusMessages
  | [], st, _ => ⟨st, rfl, rfl, rfl, rfl, rfl, rfl⟩
  | line :: rest, st, hb => by
      obtain ⟨st1, brk, hstep, e1, e2, e3, e4, e5⟩ :=
        sseStep_benign st line (hb line (by simp))
      cases brk
      · obtain ⟨st2, hloop, f1, f2, f3, f4, f5⟩ :=
          sseLoop_benign rest st1 (fun l hl => hb l (by simp [hl]))
        refine ⟨st2, ?_, by rw [f1, e1], by rw [f2, e2], by rw [f3, e3],
          by rw [f4, e4], by rw [f5, e5]⟩
        unfold sseLoop
        rw [hstep]
        simp [hloop]
      · refine ⟨st1, ?_, e1, e2, e3, e4, e5⟩
        unfold sseLoop
        rw [hstep]
        simp

/-- C1 counterexample: the payload 5 after a data marker is arbitrary
garbage (well-formed JSON of non-object shape), yet parse_sse_response
raises an uncaught TypeError on it instead of returning a Response, so
the claim that parsing never raises on arbitrary garbage after a data
marker is false. -/
theorem claim_C1_counterexample :
    parse_sse_response (CortexResponseParser.mk false) ["data: 5"] =
      .error .typeError := rfl

/-- C1 (amended): a data line whose payload fails JSON decoding is
skipped silently, leaving the loop state unchanged, and processing
continues with the next line, so a stream of event markers, non-data
lines, undecodable data lines and the terminator always yields a Response
with zero messages; payloads that decode to JSON values of unexpected
shape, however, can raise. -/
theorem claim_C1_malformed_skipped :
    (∀ (st : SSEState) (line : String),
      pyStartsWith line "event: " = false →
      pyStartsWith line "data: " = true →
      pyStrip (pyDrop line 6) ≠ "[DONE]" →
      jsonLoads (pyStrip (pyDrop line 6)) = none →
      sseStep st line = .ok (st, false)) ∧
    (∀ (p : CortexResponseParser) (lines : List String),
      (∀ l ∈ lines, benignSSELine l) →
      ∃ r, parse_sse_response p lines = .ok r ∧ r.messages = []) := by
  refine ⟨sseStep_malformed, fun p lines hb => ?_⟩
  obtain ⟨st, hloop, e1, e2, e3, e4, _⟩ :=
    sseLoop_benign lines initSSEState hb
  refine ⟨CortexResponse.mk (flushMessages st) [] st.statusMessages none,
    ?_, ?_⟩
  · unfold parse_sse_response
    rw [hloop]
    simp
  · simp [flushMessages, e1, e2, e3, e4, initSSEState, thinkingMsg]

/-- Closed instance of C1: a garbage data line between an event marker
and the terminator is skipped and the parse returns a Response with no
messages. -/
theorem claim_C1_witness :
    sseStep initSSEState "data: notjson" = .ok (initSSEState, false) ∧
    ∃ r, parse_sse_response (CortexResponseParser.mk false)
        ["event: x", "data: notjson", "data: [DONE]"] = .ok r ∧
      r.messages = [] := by
  refine ⟨claim_C1_malformed_skipped.1 _ _ rfl rfl (by decide) rfl,
    claim_C1_malformed_skipped.2 _ _ ?_⟩
  intro l hl
  simp only [List.mem_cons, List.not_mem_nil, or_false] at hl
  rcases hl with rfl | rfl | rfl
  · exact Or.inl rfl
  · exact Or.inr (Or.inr (Or.inr rfl))
  · exact Or.inr (Or.inr (Or.inl rfl))

/-! Section: Claims C4 and C5: chart extraction -/

/-- First present key of a priority list in a dict. -/
def firstKeyLookup (kvs : List (String × JVal)) : List String → Option JVal
  | [] => none
  | k :: ks =>
      match lookupKey kvs k with
      | some v => some v
      | none => firstKeyLookup kvs ks

theorem findKeyIn_obj (kvs : List (String × JVal)) (ks : List String) :
    findKeyIn (.obj kvs) ks = .ok (firstKeyLookup kvs ks) := by
  induction ks with
  | nil => rfl
  | cons k ks ih =>
      unfold findKeyIn firstKeyLookup
      cases h : lookupKey kvs k
      · simp [pyIn, h, ih]
      · simp [pyIn, h, pyIndexStr]

/-- Modelled from the claim wording of C4: the value under the
highest-priority present key, in the order chart, visualization,
vega_lite, vegaLite, vegalite. -/
def specChartPriority (kvs : List (String × JVal)) : Option JVal :=
  firstKeyLookup kvs
    ["chart", "visualization", "vega_lite", "vegaLite", "vegalite"]

/-- Modelled from the amended wording of C5: the value under the first
present key of the nested results sub-object, in the order chart,
visualization, vega_lite, vegaLite (vegalite excluded at this level). -/
def specResultsPriority (rkvs : List (String × JVal)) : Option JVal :=
  firstKeyLookup rkvs ["chart", "visualization", "vega_lite", "vegaLite"]

/-- Modelled from the claim wording of C5: the value found at the results
level: the results key must be present, bound to a dict, and that dict
must carry one of the results-level keys. -/
def specResultsLevel (jdkvs : List (String × JVal)) : Option JVal :=
  match lookupKey jdkvs "results" with
  | some (.obj rkvs) => specResultsPriority rkvs
  | _ => none

/-- Modelled from the claim wording of C5: the value under the first
present key of the item top level, in the order chart, visualization. -/
def specTopPriority (ikvs : List (String × JVal)) : Option JVal :=
  firstKeyLookup ikvs ["chart", "visualization"]


theorem specChartPriority_eq (kvs : List (String × JVal)) :
    specChartPriority kvs = firstKeyLookup kvs chartKeysWrapper := rfl

theorem specResultsPriority_eq (kvs : List (String × JVal)) :
    specResultsPriority kvs = firstKeyLookup kvs chartKeysResults := rfl

theorem specTopPriority_eq (kvs : List (String × JVal)) :
    specTopPriority kvs = firstKeyLookup kvs chartKeysTop := rfl

/-- Complete characterization of the chart search on one dict item whose
json wrapper is a dict: wrapper keys first, then the results sub-object,
then the item top level, then the next item. -/
theorem chartSpecFold_cons_obj (ikvs jdkvs : List (String × JVal))
    (rest : List JVal) (hj : lookupKey ikvs "json" = some (.obj jdkvs)) :
    chartSpecFold (.obj ikvs :: rest) =
      match specChartPriority jdkvs with
      | some v => .ok (some v)
      | none =>
        match specResultsLevel jdkvs with
        | some v => .ok (some v)
        | none =>
          match specTopPriority ikvs with
          | some v => .ok (some v)
          | none => chartSpecFold rest := by
  conv_lhs => rw [chartSpecFold]
  simp only []
  rw [hj]
  simp only []
  rw [findKeyIn_obj, ← specChartPriority_eq]
  simp only [exc_bind_ok]
  cases hw : specChartPriority jdkvs with
  | some v => simp
  | none =>
      simp only [pyIn]
      cases hr : lookupKey jdkvs "results" with
      | none =>
          simp only [hr, Option.isSome_none, Bool.false_eq_true, if_false,
            exc_pure, exc_bind_ok, specResultsLevel]
          rw [findKeyIn_obj, ← specTopPriority_eq]
          simp only [exc_bind_ok]
      | some res =>
          simp only [hr, Option.isSome_some, if_true, pyIndexStr, hr,
            exc_bind_ok]
          cases res with
          | obj rkvs =>
              rw [findKeyIn_obj, ← specResultsPriority_eq]
              simp only [exc_bind_ok, specResultsLevel, hr]
              cases hp : specResultsPriority rkvs with
              | some v => simp
              | none =>
                  simp only []
                  rw [findKeyIn_obj, ← specTopPriority_eq]
                  simp only [exc_bind_ok]
                  cases ht : specTopPriority ikvs <;> simp
          | null =>
              simp only [exc_pure, exc_bind_ok, specResultsLevel, hr]
              rw [findKeyIn_obj, ← specTopPriority_eq]
              simp only [exc_bind_ok]
          | bool b =>
              simp only [exc_pure, exc_bind_ok, specResultsLevel, hr]
              rw [findKeyIn_obj, ← specTopPriority_eq]
              simp only [exc_bind_ok]
          | num n =>
              simp only [exc_pure, exc_bind_ok, specResultsLevel, hr]
              rw [findKeyIn_obj, ← specTopPriority_eq]
              simp only [exc_bind_ok]
          | str s =>
              simp only [exc_pure, exc_bind_ok, specResultsLevel, hr]
              rw [findKeyIn_obj, ← specTopPriority_eq]
              simp only [exc_bind_ok]
          | arr xs =>
              simp only [exc_pure, exc_bind_ok, specResultsLevel, hr]
              rw [findKeyIn_obj, ← specTopPriority_eq]
              simp only [exc_bind_ok]

/-- A message holding exactly one tool_results content item rebuilding
the given tool result. -/
def msgOfToolResult (tr : ToolResult) : ParsedMessage :=
  ParsedMessage.mk (.str "assistant")
    (.arr [JVal.obj [("type", .str "tool_results"),
      ("tool_results", JVal.obj
        [("tool_use_id", tr.tool_use_id), ("content", tr.content)])]])

theorem msgOfToolResult_tool_results (tr : ToolResult) :
    (msgOfToolResult tr).tool_results = .ok [tr] := rfl

/-- C4: on a tool result whose first content item carries a structured
data wrapper, the chart value is the one under the highest-priority
present key in the order chart, visualization, vega_lite, vegaLite,
vegalite, and the remaining content items are never consulted (one chart
per tool result); chart_specs collects the per-tool-result charts across
all tool results in document order. -/
theorem claim_C4_chart_priority :
    (∀ (tid : JVal) (kvs : List (String × JVal)) (rest : List JVal)
        (v : JVal),
      specChartPriority kvs = some v →
      (ToolResult.mk tid
        (.arr (JVal.obj [("json", JVal.obj kvs)] :: rest))).chart_spec =
        .ok (some v)) ∧
    (∀ (tr1 tr2 : ToolResult) (c1 c2 : JVal),
      tr1.chart_spec = .ok (some c1) → c1.truthy = true →
      tr2.chart_spec = .ok (some c2) → c2.truthy = true →
      (CortexResponse.mk [msgOfToolResult tr1, msgOfToolResult tr2]
        [] [] none).chart_specs = .ok [c1, c2]) := by
  constructor
  · intro tid kvs rest v hv
    show (do chartSpecFold (← pyIter (.arr
      (JVal.obj [("json", JVal.obj kvs)] :: rest)))) = .ok (some v)
    simp only [pyIter, exc_bind_ok]
    rw [chartSpecFold_cons_obj [("json", JVal.obj kvs)] kvs rest rfl, hv]
  · intro tr1 tr2 c1 c2 h1 t1 h2 t2
    show chartSpecsMsgFold [msgOfToolResult tr1, msgOfToolResult tr2] [] =
      .ok [c1, c2]
    unfold chartSpecsMsgFold
    rw [msgOfToolResult_tool_results]
    simp only [exc_bind_ok]
    unfold chartSpecsTrFold
    rw [h1]
    simp only [exc_bind_ok, t1, if_true]
    unfold chartSpecsTrFold
    simp only [exc_bind_ok]
    unfold chartSpecsMsgFold
    rw [msgOfToolResult_tool_results]
    simp only [exc_bind_ok]
    unfold chartSpecsTrFold
    rw [h2]
    simp only [exc_bind_ok, t2, if_true]
    unfold chartSpecsTrFold
    simp only [exc_bind_ok]
    unfold chartSpecsMsgFold
    rfl

/-- Closed instance of C4: with both chart and vega_lite present the
chart value wins even though another item follows, and two tool results
contribute their charts in document order. -/
theorem claim_C4_witness :
    (ToolResult.mk (.str "t")
      (.arr [JVal.obj [("json", JVal.obj
          [("vega_lite", .num 2), ("chart", .num 1)])],
        JVal.obj [("json", JVal.obj [("chart", .num 9)])]])).chart_spec =
      .ok (some (.num 1)) ∧
    (CortexResponse.mk
      [msgOfToolResult (ToolResult.mk (.str "a")
         (.arr [JVal.obj [("json", JVal.obj [("chart", .num 1)])]])),
       msgOfToolResult (ToolResult.mk (.str "b")
         (.arr [JVal.obj [("json", JVal.obj [("vega_lite", .num 2)])]]))]
      [] [] none).chart_specs = .ok [.num 1, .num 2] := by
  exact ⟨claim_C4_chart_priority.1 (.str "t")
      [("vega_lite", .num 2), ("chart", .num 1)]
      [JVal.obj [("json", JVal.obj [("chart", .num 9)])]] (.num 1) rfl,
    claim_C4_chart_priority.2 _ _ (.num 1) (.num 2) rfl rfl rfl rfl⟩

/-- C5 counterexample: a results sub-object carrying only vega_lite (none
of chart and visualization) does produce a match at the results level:
the code searches the results sub-object under four keys (chart,
visualization, vega_lite, vegaLite), not under exactly the two keys the
claim states, so on this input the claim predicts no chart while the code
returns the vega_lite value. -/
theorem claim_C5_counterexample :
    (ToolResult.mk (.str "t") (.arr [JVal.obj [("json", JVal.obj
      [("results", JVal.obj [("vega_lite", .num 7)])])]])).chart_spec =
      .ok (some (.num 7)) := rfl

/-- C5 (amended): chart extraction searches first the structured-data
wrapper under chart, visualization, vega_lite, vegaLite, vegalite in that
priority, then the nested results sub-object under the four keys chart,
visualization, vega_lite, vegaLite in that priority (vegalite excluded at
this level), then the item top level under chart, visualization; a
results sub-object carrying none of those four keys contributes no match
at that level, and with every level empty the item yields no chart. -/
theorem claim_C5_search_order (tid : JVal) (ikvs jdkvs : List (String × JVal))
    (rest : List JVal) (hj : lookupKey ikvs "json" = some (.obj jdkvs)) :
    (∀ v, specChartPriority jdkvs = some v →
      (ToolResult.mk tid (.arr (.obj ikvs :: rest))).chart_spec =
        .ok (some v)) ∧
    (specChartPriority jdkvs = none → ∀ v, specResultsLevel jdkvs = some v →
      (ToolResult.mk tid (.arr (.obj ikvs :: rest))).chart_spec =
        .ok (some v)) ∧
    (specChartPriority jdkvs = none → specResultsLevel jdkvs = none →
      ∀ v, specTopPriority ikvs = some v →
      (ToolResult.mk tid (.arr (.obj ikvs :: rest))).chart_spec =
        .ok (some v)) ∧
    (specChartPriority jdkvs = none → specResultsLevel jdkvs = none →
      specTopPriority ikvs = none → rest = [] →
      (ToolResult.mk tid (.arr (.obj ikvs :: rest))).chart_spec =
        .ok none) := by
  have hbase : (ToolResult.mk tid (.arr (.obj ikvs :: rest))).chart_spec =
      chartSpecFold (.obj ikvs :: rest) := rfl
  refine ⟨?_, ?_, ?_, ?_⟩
  · intro v hv
    rw [hbase, chartSpecFold_cons_obj ikvs jdkvs rest hj, hv]
  · intro h0 v hv
    rw [hbase, chartSpecFold_cons_obj ikvs jdkvs rest hj, h0, hv]
  · intro h0 h1 v hv
    rw [hbase, chartSpecFold_cons_obj ikvs jdkvs rest hj, h0, h1, hv]
  · intro h0 h1 h2 h3
    rw [hbase, chartSpecFold_cons_obj ikvs jdkvs rest hj, h0, h1, h2, h3]
    rfl

/-- Closed instance of the amended C5: the three levels fire in order on
three concrete items. -/
theorem claim_C5_witness :
    (ToolResult.mk (.str "t") (.arr [JVal.obj
      [("json", JVal.obj [("vegalite", .num 5)]),
       ("chart", .num 9)]])).chart_spec = .ok (some (.num 5)) ∧
    (ToolResult.mk (.str "t") (.arr [JVal.obj
      [("json", JVal.obj [("results", JVal.obj [("vegaLite", .num 4)])]),
       ("chart", .num 9)]])).chart_spec = .ok (some (.num 4)) ∧
    (ToolResult.mk (.str "t") (.arr [JVal.obj
      [("json", JVal.obj [("results", JVal.obj [("vegalite", .num 8)])]),
       ("visualization", .num 3)]])).chart_spec = .ok (some (.num 3)) ∧
    (ToolResult.mk (.str "t") (.arr [JVal.obj
      [("json", JVal.obj [("results", JVal.obj [("vegalite", .num 8)])])]]
      )).chart_spec = .ok none := by
  refine ⟨(claim_C5_search_order (.str "t")
      [("json", JVal.obj [("vegalite", .num 5)]), ("chart", .num 9)]
      [("vegalite", .num 5)] [] rfl).1 (.num 5) rfl,
    (claim_C5_search_order (.str "t")
      [("json", JVal.obj [("results", JVal.obj [("vegaLite", .num 4)])]),
       ("chart", .num 9)]
      [("results", JVal.obj [("vegaLite", .num 4)])] [] rfl).2.1 rfl
      (.num 4) rfl,
    (claim_C5_search_order (.str "t")
      [("json", JVal.obj [("results", JVal.obj [("vegalite", .num 8)])]),
       ("visualization", .num 3)]
      [("results", JVal.obj [("vegalite", .num 8)])] [] rfl).2.2.1 rfl rfl
      (.num 3) rfl,
    (claim_C5_search_order (.str "t")
      [("json", JVal.obj [("results", JVal.obj [("vegalite", .num 8)])])]
      [("results", JVal.obj [("vegalite", .num 8)])] [] rfl).2.2.2 rfl rfl
      rfl rfl⟩

/-! Section: Claim C9 -/

/-- Python-iterable JSON values (list, str, dict). -/
def jsonIterable : JVal → Bool
  | .arr _ => true
  | .str _ => true
  | .obj _ => true
  | _ => false

/-- Modelled from the amended claim wording of C9: the document must be a
dict, a present message field must be bound to a dict, and a present
suggestions field must be bound to an iterable value. -/
def expectedDocShape : JVal → Bool
  | .obj kvs =>
      (match lookupKey kvs "message" with
       | some (.obj _) => true
       | some _ => false
       | none => true) &&
      (match lookupKey kvs "suggestions" with
       | some v => jsonIterable v
       | none => true)
  | _ => false

/-- Modelled from the amended claim wording of C9: a str input must
decode to a document of the expected shape; a non-str input must itself
have the expected shape. -/
def jsonInputWellFormed : JVal → Bool
  | .str s =>
      match jsonLoads s with
      | some d => expectedDocShape d
      | none => false
  | d => expectedDocShape d

theorem parseJsonDoc_ok_iff (d : JVal) :
    (∃ r, parseJsonDoc d = .ok r) ↔ expectedDocShape d = true := by
  cases d with
  | obj kvs =>
      unfold parseJsonDoc expectedDocShape
      simp only [pyGet, pyIn, exc_bind_ok]
      cases hm : lookupKey kvs "message" with
      | none =>
          simp only [Option.isSome_none, Bool.false_eq_true, if_false,
            exc_pure, exc_bind_ok]
          cases hs : lookupKey kvs "suggestions" with
          | none => simp
          | some sv =>
              simp only [Option.isSome_some, if_true, pyIndexStr, hs,
                exc_bind_ok]
              cases sv <;> simp [pyIter, jsonIterable]
      | some md =>
          simp only [Option.isSome_some, if_true, pyIndexStr, hm,
            exc_bind_ok]
          cases md with
          | obj mkvs =>
              simp only [pyGetD, pyGet, exc_bind_ok]
              cases h1 : lookupKey mkvs "role" <;>
                cases h2 : lookupKey mkvs "content" <;>
                [skip; skip; skip; skip] <;>
                simp only [exc_pure, exc_bind_ok] <;>
                (cases hs : lookupKey kvs "suggestions" with
                 | none => simp
                 | some sv =>
                     simp only [Option.isSome_some, if_true, pyIndexStr, hs,
                       exc_bind_ok]
                     cases sv <;> simp [pyIter, jsonIterable])
          | null => simp [pyGetD, pyGet]
          | bool b => simp [pyGetD, pyGet]
          | num n => simp [pyGetD, pyGet]
          | str s => simp [pyGetD, pyGet]
          | arr xs => simp [pyGetD, pyGet]
  | null => simp [parseJsonDoc, pyGet, expectedDocShape]
  | bool b => simp [parseJsonDoc, pyGet, expectedDocShape]
  | num n => simp [parseJsonDoc, pyGet, expectedDocShape]
  | str s => simp [parseJsonDoc, pyGet, expectedDocShape]
  | arr xs => simp [parseJsonDoc, pyGet, expectedDocShape]

/-- C9 counterexample: the input that is the Python string 5 is a string,
so by the claim the call must return normally; but the document decodes
to a non-object and the call raises an uncaught AttributeError instead,
falsifying that errors occur exactly on inputs that are neither a string
nor the expected object shape. -/
theorem claim_C9_counterexample :
    parse_json_response (CortexResponseParser.mk false) (.str "5") =
      .error .attributeError := rfl

/-- C9 (amended): parse_json_response raises exactly when its input is
structurally invalid, where a string input is valid only when it decodes
as JSON to a document of the expected object shape and a non-string input
is valid only when it has that shape itself (a dict whose optional
message field is a dict and whose optional suggestions field is
iterable); on valid input it returns normally, defaulting the missing
optional fields message, suggestions and request_id to empty values. -/
theorem claim_C9_error_condition (p : CortexResponseParser) :
    (∀ input : JVal,
      (∃ r, parse_json_response p input = .ok r) ↔
        jsonInputWellFormed input = true) ∧
    parse_json_response p (.obj []) = .ok (CortexResponse.mk [] [] [] none) := by
  constructor
  · intro input
    cases input with
    | str s =>
        unfold parse_json_response
        simp only []
        cases hl : jsonLoads s with
        | none => simp [jsonInputWellFormed, hl]
        | some d =>
            simp only [jsonInputWellFormed, hl, exc_pure, exc_bind_ok]
            exact parseJsonDoc_ok_iff d
    | null =>
        unfold parse_json_response
        simp only [jsonInputWellFormed, exc_pure, exc_bind_ok]
        exact parseJsonDoc_ok_iff JVal.null
    | bool b =>
        unfold parse_json_response
        simp only [jsonInputWellFormed, exc_pure, exc_bind_ok]
        exact parseJsonDoc_ok_iff (JVal.bool b)
    | num n =>
        unfold parse_json_response
        simp only [jsonInputWellFormed, exc_pure, exc_bind_ok]
        exact parseJsonDoc_ok_iff (JVal.num n)
    | arr xs =>
        unfold parse_json_response
        simp only [jsonInputWellFormed, exc_pure, exc_bind_ok]
        exact parseJsonDoc_ok_iff (JVal.arr xs)
    | obj kvs =>
        unfold parse_json_response
        simp only [jsonInputWellFormed, exc_pure, exc_bind_ok]
        exact parseJsonDoc_ok_iff (JVal.obj kvs)
  · rfl

/-- Closed instance of the amended C9: a well-formed document with every
optional field missing parses to the empty response, and a valid JSON
string whose document is a non-object is rejected by the shape
predicate. -/
theorem claim_C9_witness :
    (∃ r, parse_json_response (CortexResponseParser.mk false)
      (.str "\x7b\"message\":\x7b\"role\":\"assistant\"\x7d\x7d") = .ok r) ∧
    ¬(∃ r, parse_json_response (CortexResponseParser.mk false)
      (.str "5") = .ok r) := by
  constructor
  · exact ((claim_C9_error_condition (CortexResponseParser.mk false)).1
      _).mpr rfl
  · intro h
    have := ((claim_C9_error_condition (CortexResponseParser.mk false)).1
      _).mp h
    exact absurd this (by decide)

/-! Section: Claim C6 -/

theorem is_verified_query_eq (tr : ToolResult) (vi : List (String × JVal))
    (h : tr.verification_info = .ok vi) :
    tr.is_verified_query = .ok (vqChain vi) := by
  unfold ToolResult.is_verified_query
  rw [h]
  rfl

theorem summaryTrFold_flag : ∀ (trs : List ToolResult)
    (vi : List (String × JVal)) (flag : Bool)
    (out : List (String × JVal) × Bool),
    summaryTrFold trs (vi, flag) = .ok out →
    (out.2 = true ↔ flag = true ∨ ∃ tr ∈ trs, ∃ tvi,
      tr.verification_info = .ok tvi ∧ vqChain tvi = true)
  | [], vi, flag, out, h => by
      unfold summaryTrFold at h
      injection h with h
      subst h
      simp
  | tr :: rest, vi, flag, out, h => by
      unfold summaryTrFold at h
      rcases exc_bind_ok_iff.mp h with ⟨tv, hv, h2⟩
      rw [is_verified_query_eq tr tv hv] at h2
      simp only [exc_bind_ok] at h2
      have ih := summaryTrFold_flag rest _ _ _ h2
      rw [ih]
      constructor
      · rintro (hf | ⟨tr', htr', tvi, hvi, hc⟩)
        · rcases Bool.or_eq_true_iff.mp hf with hf | hc
          · exact Or.inl hf
          · exact Or.inr ⟨tr, by simp, tv, hv, hc⟩
        · exact Or.inr ⟨tr', by simp [htr'], tvi, hvi, hc⟩
      · rintro (hf | ⟨tr', htr', tvi, hvi, hc⟩)
        · exact Or.inl (by simp [hf])
        · rcases List.mem_cons.mp htr' with rfl | hmem
          · rw [hv] at hvi
            injection hvi with hvi
            subst hvi
            exact Or.inl (by simp [hc])
          · exact Or.inr ⟨tr', hmem, tvi, hvi, hc⟩

theorem summaryMsgFold_flag : ∀ (msgs : List ParsedMessage)
    (vi : List (String × JVal)) (flag : Bool) (pl : List String)
    (out : List (String × JVal) × Bool × List String),
    summaryMsgFold msgs (vi, flag, pl) = .ok out →
    (out.2.1 = true ↔ flag = true ∨ ∃ m ∈ msgs, ∃ trs,
      m.tool_results = .ok trs ∧ ∃ tr ∈ trs, ∃ tvi,
      tr.verification_info = .ok tvi ∧ vqChain tvi = true)
  | [], vi, flag, pl, out, h => by
      unfold summaryMsgFold at h
      injection h with h
      subst h
      simp
  | m :: rest, vi, flag, pl, out, h => by
      unfold summaryMsgFold at h
      rcases exc_bind_ok_iff.mp h with ⟨items, hit, h2⟩
      rcases exc_bind_ok_iff.mp h2 with ⟨pl', hpl, h3⟩
      rcases exc_bind_ok_iff.mp h3 with ⟨trs, htrs, h4⟩
      rcases exc_bind_ok_iff.mp h4 with ⟨⟨vi', flag'⟩, hsf, h5⟩
      simp only [] at h5
      have htr := summaryTrFold_flag trs _ _ _ hsf
      have ih := summaryMsgFold_flag rest _ _ _ _ h5
      rw [ih, htr]
      constructor
      · rintro ((hf | hex) | ⟨m', hm', rest'⟩)
        · exact Or.inl hf
        · exact Or.inr ⟨m, by simp, trs, htrs, hex⟩
        · exact Or.inr ⟨m', by simp [hm'], rest'⟩
      · rintro (hf | ⟨m', hm', trs', htrs', hex⟩)
        · exact Or.inl (Or.inl hf)
        · rcases List.mem_cons.mp hm' with rfl | hmem
          · rw [htrs] at htrs'
            injection htrs' with htrs'
            subst htrs'
            exact Or.inl (Or.inr hex)
          · exact Or.inr ⟨m', hmem, trs', htrs', hex⟩

/-- The tool result of the C6 example: structured data carrying only
query_validation. -/
def qvToolResult : ToolResult :=
  ToolResult.mk (.str "q")
    (.arr [JVal.obj [("json", JVal.obj [("query_validation", .bool true)])]])

/-- A tool result whose structured data carries a truthy validated
key. -/
def validatedToolResult : ToolResult :=
  ToolResult.mk (.str "v")
    (.arr [JVal.obj [("json", JVal.obj [("validated", .bool true)])]])

/-- C6: the derived verified-query boolean of the summary is true exactly
when some tool result of some message carries, in its merged verification
mapping, a truthy value under one of the keys verified_query_used,
query_verified, validated, verification; and a tool result carrying only
query_validation true yields a false boolean while query_validation is
still retained in the merged verification mapping of the summary. -/
theorem claim_C6_verified_query (p : CortexResponseParser)
    (r : CortexResponse) (s : Summary) (h : extract_summary p r = .ok s) :
    (s.verified_query_used = true ↔ ∃ m ∈ r.messages, ∃ trs,
      m.tool_results = .ok trs ∧ ∃ tr ∈ trs, ∃ vi,
      tr.verification_info = .ok vi ∧
      (truthyAt vi "verified_query_used" || truthyAt vi "query_verified" ||
       truthyAt vi "validated" || truthyAt vi "verification") = true) ∧
    extract_summary p (CortexResponse.mk [msgOfToolResult qvToolResult]
      [] [] none) =
      .ok (Summary.mk "" [] [] [] 0 0 [("query_validation", .bool true)]
        false [] []) := by
  constructor
  · unfold extract_summary at h
    rcases exc_bind_ok_iff.mp h with ⟨⟨vi, flag, pl⟩, hm, h2⟩
    simp only [] at h2
    rcases exc_bind_ok_iff.mp h2 with ⟨text, _, h3⟩
    rcases exc_bind_ok_iff.mp h3 with ⟨sqls, _, h4⟩
    rcases exc_bind_ok_iff.mp h4 with ⟨cits, _, h5⟩
    rcases exc_bind_ok_iff.mp h5 with ⟨tus, _, h6⟩
    rcases exc_bind_ok_iff.mp h6 with ⟨srs, _, h7⟩
    rcases exc_bind_ok_iff.mp h7 with ⟨charts, _, h8⟩
    injection h8 with h8
    subst h8
    simpa [vqChain] using
      summaryMsgFold_flag r.messages [] false [] (vi, flag, pl) hm
  · rfl

/-- Closed instance of C6: a tool result with a truthy validated key
makes the summary flag true. -/
theorem claim_C6_witness :
    (Summary.mk "" [] [] [] 0 0 [("validated", JVal.bool true)] true []
      []).verified_query_used = true :=
  (claim_C6_verified_query (CortexResponseParser.mk false)
    (CortexResponse.mk [msgOfToolResult validatedToolResult] [] [] none)
    (Summary.mk "" [] [] [] 0 0 [("validated", JVal.bool true)] true [] [])
    rfl).1.mpr
    ⟨msgOfToolResult validatedToolResult, by simp, [validatedToolResult],
      rfl, validatedToolResult, by simp,
      [("validated", JVal.bool true)], rfl, rfl⟩

/-! Section: Claim C7 -/

/-- A Text-only assistant message holding one text item. -/
def textOnlyMsg (t : String) : ParsedMessage :=
  ParsedMessage.mk (.str "assistant")
    (.arr [JVal.obj [("type", .str "text"), ("text", .str t)]])

theorem textOnlyMsg_text_content (t : String) :
    (textOnlyMsg t).text_content = .ok t := rfl

/-- A trace object whose single attribute is an agent-response text. -/
def agentResponseTrace (t : String) : JVal :=
  JVal.obj [("attributes", .arr [JVal.obj
    [("key", .str "ai.observability.agent.response"),
     ("value", JVal.obj [("stringValue", .str t)])]])]

theorem anyTextEqFold_append_self : ∀ (msgs : List ParsedMessage)
    (t : String) (m : ParsedMessage),
    anyTextEqFold msgs t = .ok false → m.text_content = .ok t →
    anyTextEqFold (msgs ++ [m]) t = .ok true
  | [], t, m, _, hm => by
      simp only [List.nil_append]
      unfold anyTextEqFold
      rw [hm]
      simp [anyTextEqFold]
  | m0 :: rest, t, m, h, hm => by
      unfold anyTextEqFold at h
      rcases exc_bind_ok_iff.mp h with ⟨tc, htc, h2⟩
      have goal_eq : anyTextEqFold ((m0 :: rest) ++ [m]) t = (do
          let tc ← m0.text_content
          if (tc == t) = true then pure true
          else anyTextEqFold (rest ++ [m]) t) := rfl
      rw [goal_eq, htc]
      simp only [exc_bind_ok] at h2 ⊢
      by_cases hb : (tc == t) = true
      · rw [hb] at h2
        simp at h2
      · rw [Bool.not_eq_true] at hb
        rw [hb] at h2 ⊢
        simp only [Bool.false_eq_true, if_false] at h2 ⊢
        exact anyTextEqFold_append_self rest t m h2 hm

theorem extract_agentResponseTrace (p : CortexResponseParser)
    (r : CortexResponse) (t : String) (hstrip : pyStrip t = t)
    (hne : t ≠ "") :
    extract_from_trace p (agentResponseTrace t) r = (do
      let dup ← anyTextEqFold r.messages t
      if !dup then
        pure { r with messages := r.messages ++ [textOnlyMsg t] }
      else pure r) := by
  have hnil : ∀ x, traceAttrsFold [] x = .ok x := fun x => rfl
  have hbp : ∀ (e : Except PyError CortexResponse),
      e >>= (fun a => Except.ok a) = e := by
    intro e
    cases e <;> rfl
  unfold extract_from_trace agentResponseTrace traceAttrsFold traceAttrStep
  simp [pyGetD, pyGet, pyIter, pyStripJ, lookupKey, jstrEq, hstrip, hne,
    textOnlyMsg, hnil, hbp]

/-- C7: in the trace path an agent-response text is appended as a new
Text-only assistant message unless the concatenated text of some
existing message equals it exactly; in particular processing the same agent-response
trace twice yields the text once, the second pass leaving the response
unchanged. -/
theorem claim_C7_trace_dedup (p : CortexResponseParser) (r : CortexResponse)
    (t : String) (hstrip : pyStrip t = t) (hne : t ≠ "") :
    (anyTextEqFold r.messages t = .ok false →
      extract_from_trace p (agentResponseTrace t) r =
        .ok { r with messages := r.messages ++ [textOnlyMsg t] } ∧
      extract_from_trace p (agentResponseTrace t)
          { r with messages := r.messages ++ [textOnlyMsg t] } =
        .ok { r with messages := r.messages ++ [textOnlyMsg t] }) ∧
    (anyTextEqFold r.messages t = .ok true →
      extract_from_trace p (agentResponseTrace t) r = .ok r) := by
  constructor
  · intro hdup
    constructor
    · rw [extract_agentResponseTrace p r t hstrip hne, hdup]
      simp
    · rw [extract_agentResponseTrace p _ t hstrip hne]
      have hall : anyTextEqFold
          ({ r with messages := r.messages ++ [textOnlyMsg t] } :
            CortexResponse).messages t = .ok true := by
        exact anyTextEqFold_append_self r.messages t _ hdup
          (textOnlyMsg_text_content t)
      rw [hall]
      simp
  · intro hdup
    rw [extract_agentResponseTrace p r t hstrip hne, hdup]
    simp

/-- Closed instance of C7: the same agent-response trace applied twice to
an empty response adds its text once. -/
theorem claim_C7_witness :
    extract_from_trace (CortexResponseParser.mk false)
        (agentResponseTrace "hello") (CortexResponse.mk [] [] [] none) =
      .ok (CortexResponse.mk [textOnlyMsg "hello"] [] [] none) ∧
    extract_from_trace (CortexResponseParser.mk false)
        (agentResponseTrace "hello")
        (CortexResponse.mk [textOnlyMsg "hello"] [] [] none) =
      .ok (CortexResponse.mk [textOnlyMsg "hello"] [] [] none) := by
  have h := (claim_C7_trace_dedup (CortexResponseParser.mk false)
    (CortexResponse.mk [] [] [] none) "hello" rfl (by decide)).1 rfl
  exact ⟨h.1, h.2⟩

/-! Section: Claim C3 -/

theorem pyStrip_idem (s : String) : pyStrip (pyStrip s) = pyStrip s := by
  show String.mk _ = String.mk _
  congr 1
  show List.rdropWhile isPyWs
      ((List.rdropWhile isPyWs (s.data.dropWhile isPyWs)).dropWhile
        isPyWs) =
    List.rdropWhile isPyWs (s.data.dropWhile isPyWs)
  have h1 : (List.rdropWhile isPyWs
      (s.data.dropWhile isPyWs)).dropWhile isPyWs =
      List.rdropWhile isPyWs (s.data.dropWhile isPyWs) := by
    rw [List.dropWhile_eq_self_iff]
    intro hl
    have hpre := List.rdropWhile_prefix isPyWs (s.data.dropWhile isPyWs)
    have hlen : 0 < (s.data.dropWhile isPyWs).length :=
      lt_of_lt_of_le hl hpre.length_le
    have hget := List.IsPrefix.getElem hpre hl
    rw [List.get_eq_getElem, hget]
    have := List.dropWhile_get_zero_not isPyWs s.data hlen
    rwa [List.get_eq_getElem] at this
  rw [h1]
  exact List.rdropWhile_idempotent isPyWs (s.data.dropWhile isPyWs)

/-- Every span contributed by one thinking payload is already stripped
and non-empty. -/
theorem thinkingSpanOf_stripped (s : String) :
    ∀ t ∈ thinkingSpanOf s, pyStrip t = t ∧ t ≠ "" := by
  intro t ht
  unfold thinkingSpanOf at ht
  cases hx : extractThinking s with
  | none => simp only [hx] at ht; simp at ht
  | some g =>
      simp only [hx] at ht
      by_cases hne : (pyStrip g != "") = true
      · rw [if_pos hne] at ht
        simp only [List.mem_singleton] at ht
        subst ht
        exact ⟨pyStrip_idem g, by simpa using hne⟩
      · rw [if_neg hne] at ht
        simp at ht

/-- The classification of a decoded payload is never the done marker. -/
theorem processDataVal_not_done (data : JVal) (pl : ParsedLine)
    (h : processDataVal data = .ok pl) : pl ≠ .done := by
  intro hd
  subst hd
  unfold processDataVal at h
  simp only [bind, Except.bind, pure, Except.pure] at h
  repeat' split at h
  all_goals simp_all

/-- One thinking data line extends the thinking buffer by the span of its
text payload and touches nothing else; the step does not break. -/
theorem sseStep_thinking (st : SSEState) (line : String) (v : JVal)
    (s : String) (pl : ParsedLine)
    (hor : st.currentEvent = some "response.thinking" ∨
      st.currentEvent = some "response.thinking.delta")
    (h1 : pyStartsWith line "event: " = false)
    (h2 : pyStartsWith line "data: " = true)
    (h3 : pyStrip (pyDrop line 6) ≠ "[DONE]")
    (h4 : jsonLoads (pyStrip (pyDrop line 6)) = some v)
    (h5 : pyIn "text" v = .ok true)
    (h6 : pyIndexStr v "text" = .ok (.str s))
    (h7 : processSSELine line = .ok pl) :
    sseStep st line =
      .ok ({ st with thinking := st.thinking ++ thinkingSpanOf s }, false) := by
  have hnd : pl ≠ .done := by
    unfold processSSELine at h7
    rw [h2] at h7
    simp only [Bool.not_true, Bool.false_eq_true, if_false] at h7
    rw [if_neg (by simp [h3])] at h7
    split at h7
    · intro hd
      subst hd
      exact ParsedLine.noConfusion (Except.ok.inj h7)
    · rw [h4] at h7
      exact processDataVal_not_done v pl h7
  have hmerge : mergeAllowed st.currentEvent = false := by
    rcases hor with he | he <;> rw [he] <;> rfl
  have hhd : handleData st v =
      .ok { st with thinking := st.thinking ++ thinkingSpanOf s } := by
    unfold handleData
    rw [if_pos (Or.symm hor)]
    rw [h5]
    simp only [exc_bind_ok, if_true]
    rw [h6]
    simp only [exc_bind_ok, asStr, exc_pure]
  unfold sseStep
  rw [h1]
  rw [if_neg (by simp)]
  rw [if_neg (fun hc => h3 hc.2)]
  rw [h2]
  simp only [if_true]
  rw [h4]
  simp only []
  rw [hhd]
  simp only [exc_bind_ok]
  rw [h7]
  simp only [exc_bind_ok, hmerge, Bool.false_eq_true, if_false]

/-- handleData leaves the thinking buffer unchanged or extends it by the
span of one payload text. -/
theorem handleData_thinking (st : SSEState) (v : JVal) (st' : SSEState)
    (h : handleData st v = .ok st') :
    st'.thinking = st.thinking ∨
      ∃ s, st'.thinking = st.thinking ++ thinkingSpanOf s := by
  unfold handleData at h
  simp only [bind, Except.bind, pure, Except.pure] at h
  repeat' split at h
  all_goals try exact Except.noConfusion h
  all_goals injection h with h
  all_goals subst h
  all_goals first
    | exact Or.inl rfl
    | exact Or.inr ⟨_, rfl⟩

/-- One loop step leaves the thinking buffer unchanged or extends it by
one span list. -/
theorem sseStep_thinking_shape (st : SSEState) (line : String)
    (st' : SSEState) (brk : Bool) (h : sseStep st line = .ok (st', brk)) :
    st'.thinking = st.thinking ∨
      ∃ s, st'.thinking = st.thinking ++ thinkingSpanOf s := by
  unfold sseStep at h
  by_cases he : pyStartsWith line "event: " = true
  · simp only [he, if_true] at h
    injection h with h
    rw [Prod.mk.injEq] at h
    rw [← h.1]
    exact Or.inl rfl
  · simp only [he, Bool.false_eq_true, if_false] at h
    by_cases hd : pyStartsWith line "data: " = true ∧
        pyStrip (pyDrop line 6) = "[DONE]"
    · rw [if_pos hd] at h
      injection h with h
      rw [Prod.mk.injEq] at h
      rw [← h.1]
      exact Or.inl rfl
    · rw [if_neg hd] at h
      split at h
      · split at h
        · rcases exc_bind_ok_iff.mp h with ⟨st1, h1, h2⟩
          rcases exc_bind_ok_iff.mp h2 with ⟨parsed, _, h3⟩
          have hst2 : st'.thinking = st1.thinking := by
            split at h3 <;>
            · injection h3 with h3
              rw [Prod.mk.injEq] at h3
              rw [← h3.1]
              split
              · split <;> rfl
              · rfl
          rw [hst2]
          exact handleData_thinking st _ st1 h1
        · simp only [exc_pure, exc_bind_ok] at h
          rcases exc_bind_ok_iff.mp h with ⟨parsed, _, h3⟩
          have hst2 : st'.thinking = st.thinking := by
            split at h3 <;>
            · injection h3 with h3
              rw [Prod.mk.injEq] at h3
              rw [← h3.1]
              split
              · split <;> rfl
              · rfl
          exact Or.inl hst2
      · simp only [exc_pure, exc_bind_ok] at h
        rcases exc_bind_ok_iff.mp h with ⟨parsed, _, h3⟩
        have hst2 : st'.thinking = st.thinking := by
          split at h3 <;>
          · injection h3 with h3
            rw [Prod.mk.injEq] at h3
            rw [← h3.1]
            split
            · split <;> rfl
            · rfl
        exact Or.inl hst2

/-- Along any successful run of the loop every accumulated thinking span
is stripped and non-empty. -/
theorem sseLoop_thinking_stripped : ∀ (lines : List String)
    (st st' : SSEState), sseLoop lines st = .ok st' →
    (∀ t ∈ st.thinking, pyStrip t = t ∧ t ≠ "") →
    ∀ t ∈ st'.thinking, pyStrip t = t ∧ t ≠ ""
  | [], st, st', h, inv => by
      unfold sseLoop at h
      injection h with h
      subst h
      exact inv
  | line :: rest, st, st', h, inv => by
      unfold sseLoop at h
      rcases exc_bind_ok_iff.mp h with ⟨⟨st1, brk⟩, hstep, h2⟩
      have inv1 : ∀ t ∈ st1.thinking, pyStrip t = t ∧ t ≠ "" := by
        rcases sseStep_thinking_shape st line st1 brk hstep with hsame |
          ⟨s, hext⟩
        · rw [hsame]
          exact inv
        · rw [hext]
          intro t ht
          rcases List.mem_append.mp ht with hm | hm
          · exact inv t hm
          · exact thinkingSpanOf_stripped s t hm
      simp only [] at h2
      cases brk
      · simp only [Bool.false_eq_true, if_false] at h2
        exact sseLoop_thinking_stripped rest st1 st' h2 inv1
      · simp only [if_true] at h2
        injection h2 with h2
        subst h2
        exact inv1

/-- C3: on a thinking or thinking-delta event the substring strictly
between the thinking markers is extracted and trimmed, an empty
extraction contributing nothing and a non-empty one appended as its own
separate span, never merged with prior spans and leaving every other
buffer unchanged; at flush, each accumulated span becomes its own
assistant message holding exactly one Thinking item, in extraction order,
all before the at most one aggregate message. -/
theorem claim_C3_thinking_spans :
    (∀ (st : SSEState) (line : String) (v : JVal) (s : String)
        (pl : ParsedLine),
      st.currentEvent = some "response.thinking" ∨
        st.currentEvent = some "response.thinking.delta" →
      pyStartsWith line "event: " = false →
      pyStartsWith line "data: " = true →
      pyStrip (pyDrop line 6) ≠ "[DONE]" →
      jsonLoads (pyStrip (pyDrop line 6)) = some v →
      pyIn "text" v = .ok true →
      pyIndexStr v "text" = .ok (.str s) →
      processSSELine line = .ok pl →
      sseStep st line =
        .ok ({ st with thinking := st.thinking ++ thinkingSpanOf s },
          false)) ∧
    (∀ (p : CortexResponseParser) (lines : List String) (r : CortexResponse),
      parse_sse_response p lines = .ok r →
      ∃ st agg, sseLoop lines initSSEState = .ok st ∧
        r.messages = st.thinking.map thinkingMsg ++ agg ∧
        (agg = [] ∨ ∃ c, agg = [ParsedMessage.mk (.str "assistant") c]) ∧
        ∀ t ∈ st.thinking, pyStrip t = t ∧ t ≠ "") := by
  refine ⟨sseStep_thinking, ?_⟩
  intro p lines r h
  unfold parse_sse_response at h
  rcases exc_bind_ok_iff.mp h with ⟨st, hloop, h2⟩
  injection h2 with h2
  subst h2
  have inv := sseLoop_thinking_stripped lines initSSEState st hloop
    (by intro t ht; simp [initSSEState] at ht)
  have hfil : st.thinking.filter (fun t => pyStrip t != "") = st.thinking := by
    apply List.filter_eq_self.mpr
    intro t ht
    rcases inv t ht with ⟨hs, hne⟩
    rw [hs]
    simpa using hne
  refine ⟨st,
    (if st.accText != "" || !st.accToolUse.isEmpty ||
        !st.accToolResults.isEmpty then
      [ParsedMessage.mk (.str "assistant") (.arr
        ((if st.accText != "" then
            [JVal.obj [("type", .str "text"), ("text", .str st.accText)]]
          else []) ++
         st.accToolUse.map (fun tu =>
           JVal.obj [("type", .str "tool_use"), ("tool_use", tu)]) ++
         st.accToolResults.map (fun tr =>
           JVal.obj [("type", .str "tool_results"),
             ("tool_results", tr)])))]
    else []), hloop, ?_, ?_, inv⟩
  · show flushMessages st = _
    unfold flushMessages
    rw [hfil]
  · split
    · exact Or.inr ⟨_, rfl⟩
    · exact Or.inl rfl

/-- Closed instance of C3: the spec example payload with span plan
extends the buffer by exactly one span, and the parsed stream yields
exactly the one thinking message. -/
theorem claim_C3_witness :
    sseStep (SSEState.mk "" [] [] [] [] (some "response.thinking"))
        "data: \x7b\"text\":\"<thinking>plan</thinking>\"\x7d" =
      .ok (SSEState.mk "" [] [] ["plan"] [] (some "response.thinking"),
        false) ∧
    (∃ st agg, sseLoop ["event: response.thinking",
        "data: \x7b\"text\":\"<thinking>plan</thinking>\"\x7d",
        "data: [DONE]"] initSSEState = .ok st ∧
      (CortexResponse.mk [thinkingMsg "plan"] [] [] none).messages =
        st.thinking.map thinkingMsg ++ agg ∧
      (agg = [] ∨ ∃ c, agg = [ParsedMessage.mk (.str "assistant") c]) ∧
      ∀ t ∈ st.thinking, pyStrip t = t ∧ t ≠ "") := by
  constructor
  · exact claim_C3_thinking_spans.1
      (SSEState.mk "" [] [] [] [] (some "response.thinking"))
      "data: \x7b\"text\":\"<thinking>plan</thinking>\"\x7d"
      (JVal.obj [("text", .str "<thinking>plan</thinking>")])
      "<thinking>plan</thinking>"
      (ParsedLine.other
        (JVal.obj [("text", .str "<thinking>plan</thinking>")]))
      (Or.inl rfl) rfl rfl (by decide) rfl rfl rfl rfl
  · exact claim_C3_thinking_spans.2 (CortexResponseParser.mk false) _
      (CortexResponse.mk [thinkingMsg "plan"] [] [] none) rfl

/-! Section: Claim C10 -/

/-- Every message flushed by the streaming path has the assistant
role. -/
theorem parse_sse_roles (p : CortexResponseParser) (lines : List String)
    (r : CortexResponse) (h : parse_sse_response p lines = .ok r) :
    ∀ m ∈ r.messages, m.role = .str "assistant" := by
  unfold parse_sse_response at h
  rcases exc_bind_ok_iff.mp h with ⟨st, _, h2⟩
  injection h2 with h2
  subst h2
  intro m hm
  simp only [flushMessages] at hm
  rcases List.mem_append.mp hm with hm | hm
  · rcases List.mem_map.mp hm with ⟨t, _, hmt⟩
    rw [← hmt]
    rfl
  · split at hm
    · simp only [List.mem_singleton] at hm
      rw [hm]
    · simp at hm

theorem appendToLast_roles (r : CortexResponse) (item : JVal)
    (r' : CortexResponse) (hr : ∀ m ∈ r.messages, m.role = .str "assistant")
    (h : appendToLast r item = .ok r') :
    ∀ m ∈ r'.messages, m.role = .str "assistant" := by
  unfold appendToLast at h
  split at h
  · exact Except.noConfusion h
  · next m0 hL =>
      split at h
      · injection h with h
        subst h
        intro m hm
        simp only [] at hm
        rcases List.mem_append.mp hm with hm | hm
        · exact hr m (List.mem_of_mem_dropLast hm)
        · simp only [List.mem_singleton] at hm
          subst hm
          have hm0 : m0 ∈ r.messages := by
            rcases List.eq_nil_or_concat r.messages with hnil | ⟨l', a, hc⟩
            · rw [hnil] at hL
              exact Option.noConfusion hL
            · rw [hc] at hL ⊢
              rw [List.concat_eq_append] at hL ⊢
              rw [List.getLast?_concat] at hL
              injection hL with hL
              subst hL
              exact List.mem_append_right _ (List.mem_singleton.mpr rfl)
          exact hr m0 hm0
      · exact Except.noConfusion h

theorem appendTraceItem_roles (r : CortexResponse) (item : JVal)
    (r' : CortexResponse) (hr : ∀ m ∈ r.messages, m.role = .str "assistant")
    (h : appendTraceItem r item = .ok r') :
    ∀ m ∈ r'.messages, m.role = .str "assistant" := by
  unfold appendTraceItem at h
  split at h
  · exact appendToLast_roles r item r' hr h
  · injection h with h
    subst h
    intro m hm
    simp only [List.mem_singleton] at hm
    subst hm
    rfl

theorem searchTraceFold_roles : ∀ (items : List JVal) (i : Nat)
    (r r' : CortexResponse),
    (∀ m ∈ r.messages, m.role = .str "assistant") →
    searchTraceFold items i r = .ok r' →
    ∀ m ∈ r'.messages, m.role = .str "assistant"
  | [], i, r, r', hr, h => by
      unfold searchTraceFold at h
      injection h with h
      subst h
      exact hr
  | result :: rest, i, r, r', hr, h => by
      unfold searchTraceFold at h
      rcases exc_bind_ok_iff.mp h with ⟨sv, _, h2⟩
      split at h2
      · rcases exc_bind_ok_iff.mp h2 with ⟨stx, _, h3⟩
        rcases exc_bind_ok_iff.mp h3 with ⟨r1, hap, h4⟩
        exact searchTraceFold_roles rest (i + 1) r1 r'
          (appendTraceItem_roles r _ r1 hr hap) h4
      · exact searchTraceFold_roles rest (i + 1) r r' hr h2

theorem traceAttrStep_roles (r : CortexResponse) (attr : JVal)
    (r' : CortexResponse) (hr : ∀ m ∈ r.messages, m.role = .str "assistant")
    (h : traceAttrStep r attr = .ok r') :
    ∀ m ∈ r'.messages, m.role = .str "assistant" := by
  unfold traceAttrStep at h
  rcases exc_bind_ok_iff.mp h with ⟨key, _, h2⟩
  rcases exc_bind_ok_iff.mp h2 with ⟨value, _, h3⟩
  split at h3
  · rcases exc_bind_ok_iff.mp h3 with ⟨sv, _, h4⟩
    rcases exc_bind_ok_iff.mp h4 with ⟨text, _, h5⟩
    split at h5
    · rcases exc_bind_ok_iff.mp h5 with ⟨dup, _, h6⟩
      split at h6
      · injection h6 with h6
        subst h6
        intro m hm
        simp only [] at hm
        rcases List.mem_append.mp hm with hm | hm
        · exact hr m hm
        · simp only [List.mem_singleton] at hm
          subst hm
          rfl
      · injection h6 with h6
        subst h6
        exact hr
    · injection h5 with h5
      subst h5
      exact hr
  · split at h3
    · rcases exc_bind_ok_iff.mp h3 with ⟨sv, _, h4⟩
      rcases exc_bind_ok_iff.mp h4 with ⟨sql, _, h5⟩
      split at h5
      · rcases exc_bind_ok_iff.mp h5 with ⟨existing, _, h6⟩
        split at h6
        · exact appendTraceItem_roles r _ r' hr h6
        · injection h6 with h6
          subst h6
          exact hr
      · injection h5 with h5
        subst h5
        exact hr
    · split at h3
      · rcases exc_bind_ok_iff.mp h3 with ⟨av, _, h4⟩
        rcases exc_bind_ok_iff.mp h4 with ⟨vals, _, h5⟩
        split at h5
        · rcases exc_bind_ok_iff.mp h5 with ⟨items, _, h6⟩
          exact searchTraceFold_roles items 0 r r' hr h6
        · injection h5 with h5
          subst h5
          exact hr
      · split at h3
        · split at h3
          · rcases exc_bind_ok_iff.mp h3 with ⟨v, _, h4⟩
            injection h4 with h4
            subst h4
            exact hr
          · injection h3 with h3
            subst h3
            exact hr
        · injection h3 with h3
          subst h3
          exact hr

theorem traceAttrsFold_roles : ∀ (items : List JVal)
    (r r' : CortexResponse),
    (∀ m ∈ r.messages, m.role = .str "assistant") →
    traceAttrsFold items r = .ok r' →
    ∀ m ∈ r'.messages, m.role = .str "assistant"
  | [], r, r', hr, h => by
      unfold traceAttrsFold at h
      injection h with h
      subst h
      exact hr
  | attr :: rest, r, r', hr, h => by
      unfold traceAttrsFold at h
      rcases exc_bind_ok_iff.mp h with ⟨r1, h1, h2⟩
      exact traceAttrsFold_roles rest r1 r'
        (traceAttrStep_roles r attr r1 hr h1) h2

/-- On an all-assistant response the reverse scan of final_text returns
the text of the last message. -/
theorem final_text_last (r : CortexResponse)
    (hr : ∀ m ∈ r.messages, m.role = .str "assistant") :
    r.final_text = (match r.messages.getLast? with
      | some m => m.text_content
      | none => .ok "") := by
  unfold CortexResponse.final_text
  rcases List.eq_nil_or_concat r.messages with hnil | ⟨l', a, hc⟩
  · rw [hnil]
    rfl
  · rw [hc] at hr ⊢
    rw [List.concat_eq_append] at hr ⊢
    rw [List.reverse_concat']
    unfold finalTextGo
    have ha : a.role = .str "assistant" :=
      hr a (List.mem_append_right _ (List.mem_singleton.mpr rfl))
    rw [ha]
    simp only [jstrEq, beq_self_eq_true, if_true]
    rw [List.getLast?_concat]

/-- C10: every message appended by the streaming path and by the trace
path carries the assistant role, and consequently on such responses
final_text is the concatenated text of the very last message (or the
empty string when no message exists), the reverse scan never skipping
anything. -/
theorem claim_C10_assistant_invariant :
    (∀ (p : CortexResponseParser) (lines : List String)
        (r : CortexResponse), parse_sse_response p lines = .ok r →
      ∀ m ∈ r.messages, m.role = .str "assistant") ∧
    (∀ (p : CortexResponseParser) (td : JVal) (r r' : CortexResponse),
      (∀ m ∈ r.messages, m.role = .str "assistant") →
      extract_from_trace p td r = .ok r' →
      ∀ m ∈ r'.messages, m.role = .str "assistant") ∧
    (∀ r : CortexResponse,
      (∀ m ∈ r.messages, m.role = .str "assistant") →
      r.final_text = (match r.messages.getLast? with
        | some m => m.text_content
        | none => .ok "")) := by
  refine ⟨parse_sse_roles, ?_, final_text_last⟩
  intro p td r r' hr h
  unfold extract_from_trace at h
  rcases exc_bind_ok_iff.mp h with ⟨attrs, _, h2⟩
  rcases exc_bind_ok_iff.mp h2 with ⟨items, _, h3⟩
  exact traceAttrsFold_roles items r r' hr h3

/-- Closed instance of C10: the message flushed from the C2 stream has
the assistant role, the trace path keeps an all-assistant response
all-assistant, and final_text on a one-message response is the text of
that message. -/
theorem claim_C10_witness :
    (ParsedMessage.mk (JVal.str "assistant")
      (.arr [JVal.obj [("type", .str "text"),
        ("text", .str "AB")]])).role = .str "assistant" ∧
    (textOnlyMsg "hello").role = .str "assistant" ∧
    CortexResponse.final_text
      (CortexResponse.mk [textOnlyMsg "hi"] [] [] none) = .ok "hi" := by
  refine ⟨?_, ?_, ?_⟩
  · exact claim_C10_assistant_invariant.1 (CortexResponseParser.mk false)
      ["event: response.text.delta",
       "data: \x7b\"text\":\"A\"\x7d",
       "data: \x7b\"text\":\"B\"\x7d",
       "data: [DONE]"]
      (CortexResponse.mk
        [ParsedMessage.mk (.str "assistant")
          (.arr [JVal.obj [("type", .str "text"), ("text", .str "AB")]])]
        [] [] none) rfl _ (List.mem_singleton.mpr rfl)
  · exact claim_C10_assistant_invariant.2.1 (CortexResponseParser.mk false)
      (agentResponseTrace "hello") (CortexResponse.mk [] [] [] none)
      (CortexResponse.mk [textOnlyMsg "hello"] [] [] none)
      (by intro m hm; simp at hm) rfl _ (List.mem_singleton.mpr rfl)
  · exact claim_C10_assistant_invariant.2.2
      (CortexResponse.mk [textOnlyMsg "hi"] [] [] none)
      (by
        intro m hm
        simp only [List.mem_singleton] at hm
        subst hm
        rfl)
